import Mathlib

/-!
Verification of the thermo-raw RAW-file reader (crates/thermo-raw).

Shallow embedding conventions:
* A byte buffer is a list of natural numbers (each byte in 0..255); reads use
  little-endian order exactly as the byteorder-based BinaryReader does.
* IEEE-754 f64/f32 values are decoded from their bit patterns into exact
  rationals.  Infinities are mapped to the sentinels plus/minus 2^1024 and NaN
  to the sentinel 2^1060 (with the sign bit applied): every comparison the
  embedded code performs on such values then yields the same truth value as
  the IEEE comparison would (the sentinels are outside every interval the code
  tests, and NaN never satisfies a bounded window test).
* The float arithmetic the code performs (window arithmetic, the 0.001
  monotonicity slack, profile abscissa generation, summation, the
  frequency-to-m/z polynomial) is modelled by exact rational arithmetic;
  float literals of the Rust source are embedded as the exact rational value
  of the corresponding f64 literal.
* Machine integers are Nat (u8/u16/u32/u64) or Int (i32), read via explicit
  little-endian byte accumulation; fallible code returns Except.
* Rational arithmetic is performed through the mkRat-based wrappers qAdd,
  qSub, qMul, qDiv below, which are definitionally transparent (so concrete
  runs evaluate inside the kernel); the bridge theorems qAdd_eq, qSub_eq,
  qMul_eq, qDiv_eq prove them equal to the standard field operations of ℚ.
-/

namespace ThermoRaw

set_option maxRecDepth 40000

/-- Transparent addition on ℚ (equal to + by theorem qAdd_eq below). -/
def qAdd (a b : ℚ) : ℚ := mkRat (a.num * b.den + b.num * a.den) (a.den * b.den)

/-- Transparent multiplication on ℚ (equal to * by theorem qMul_eq below). -/
def qMul (a b : ℚ) : ℚ := mkRat (a.num * b.num) (a.den * b.den)

/-- Transparent inverse on ℚ (equal to the field inverse by qInv_eq below). -/
def qInv (a : ℚ) : ℚ := mkRat (a.num.sign * a.den) a.num.natAbs

/-- Transparent division on ℚ (equal to / by theorem qDiv_eq below). -/
def qDiv (a b : ℚ) : ℚ := qMul a (qInv b)

/-- Transparent subtraction on ℚ (equal to - by theorem qSub_eq below). -/
def qSub (a b : ℚ) : ℚ := qAdd a (-b)

/-- A byte buffer (the immutable file image): one Nat per byte. -/
abbrev Bytes := List Nat

/-- Byte at index i (reads are always bounds-checked before use). -/
def byteAt (d : Bytes) (i : Nat) : Nat := d.getD i 0

/-- Little-endian accumulation of n bytes starting at pos. -/
def leNat (d : Bytes) (pos : Nat) : Nat → Nat
  | 0 => 0
  | n + 1 => byteAt d pos + 256 * leNat d (pos + 1) n

/-- Exact rational value of an IEEE-754 binary64 bit pattern.
Infinity maps to the sentinel 2^1024, NaN to 2^1060 (sign applied). -/
def qOfF64Bits (w : Nat) : ℚ :=
  let sign : Nat := w / 2 ^ 63
  let e : Nat := w / 2 ^ 52 % 2 ^ 11
  let m : Nat := w % 2 ^ 52
  let mag : ℚ :=
    if e = 2047 then (if m = 0 then mkRat (2 ^ 1024) 1 else mkRat (2 ^ 1060) 1)
    else if e = 0 then mkRat m (2 ^ 1074)
    else if e ≥ 1075 then mkRat ((2 ^ 52 + m) * 2 ^ (e - 1075)) 1
    else mkRat (2 ^ 52 + m) (2 ^ (1075 - e))
  if sign = 1 then -mag else mag

/-- Exact rational value of an IEEE-754 binary32 bit pattern.
Infinity maps to the sentinel 2^1024, NaN to 2^1060 (sign applied). -/
def qOfF32Bits (w : Nat) : ℚ :=
  let sign : Nat := w / 2 ^ 31
  let e : Nat := w / 2 ^ 23 % 2 ^ 8
  let m : Nat := w % 2 ^ 23
  let mag : ℚ :=
    if e = 255 then (if m = 0 then mkRat (2 ^ 1024) 1 else mkRat (2 ^ 1060) 1)
    else if e = 0 then mkRat m (2 ^ 149)
    else if e ≥ 150 then mkRat ((2 ^ 23 + m) * 2 ^ (e - 150)) 1
    else mkRat (2 ^ 23 + m) (2 ^ (150 - e))
  if sign = 1 then -mag else mag

/-- The error enumeration of the crate (error.rs, RawError).  String payloads
(reasons, details) carry no logic and are dropped; the ScanDecodeError offset
payload is kept because the spec talks about it. -/
inductive RawErr where
  | io : RawErr
  | notRawFile : RawErr
  | unsupportedVersion (v : Nat) : RawErr
  | streamNotFound : RawErr
  | scanOutOfRange (n : Nat) : RawErr
  | scanDecodeError (offset : Nat) : RawErr
  | corruptedData : RawErr
  | cfbError : RawErr
deriving DecidableEq

deriving instance DecidableEq for Except

/-- BinaryReader.read_u8: bounds-checked byte read, returning the value and
the new cursor position (io_utils.rs).  Bounds failures become CorruptedData,
as in check_remaining. -/
def readU8 (d : Bytes) (pos : Nat) : Except RawErr (Nat × Nat) :=
  if pos + 1 ≤ d.length then .ok (leNat d pos 1, pos + 1) else .error .corruptedData

/-- BinaryReader.read_u16 (little-endian, bounds-checked). -/
def readU16 (d : Bytes) (pos : Nat) : Except RawErr (Nat × Nat) :=
  if pos + 2 ≤ d.length then .ok (leNat d pos 2, pos + 2) else .error .corruptedData

/-- BinaryReader.read_u32 (little-endian, bounds-checked). -/
def readU32 (d : Bytes) (pos : Nat) : Except RawErr (Nat × Nat) :=
  if pos + 4 ≤ d.length then .ok (leNat d pos 4, pos + 4) else .error .corruptedData

/-- BinaryReader.read_u64 (little-endian, bounds-checked). -/
def readU64 (d : Bytes) (pos : Nat) : Except RawErr (Nat × Nat) :=
  if pos + 8 ≤ d.length then .ok (leNat d pos 8, pos + 8) else .error .corruptedData

/-- BinaryReader.read_f32 decoded to an exact rational (bounds-checked). -/
def readF32 (d : Bytes) (pos : Nat) : Except RawErr (ℚ × Nat) :=
  if pos + 4 ≤ d.length then .ok (qOfF32Bits (leNat d pos 4), pos + 4)
  else .error .corruptedData

/-- BinaryReader.read_f64 decoded to an exact rational (bounds-checked). -/
def readF64 (d : Bytes) (pos : Nat) : Except RawErr (ℚ × Nat) :=
  if pos + 8 ≤ d.length then .ok (qOfF64Bits (leNat d pos 8), pos + 8)
  else .error .corruptedData

/-- BinaryReader.skip: advance n bytes, bounds-checked. -/
def skipBytes (d : Bytes) (pos n : Nat) : Except RawErr Nat :=
  if pos + n ≤ d.length then .ok (pos + n) else .error .corruptedData

/-- frequency_to_mz (scan_event.rs:501): conversion of a frequency-domain
sample to m/z using the scan events calibration coefficients.  Dispatches on
the coefficient count.  The literal 1e6 of the source is exactly 1000000 as
an f64. -/
def frequencyToMz (frequency : ℚ) (params : List ℚ) : ℚ :=
  match params with
  | [] => frequency
  | [a, b, _, _] =>
    let freqMhz := qDiv frequency 1000000
    if qAdd freqMhz b ≠ 0 then qDiv a (qAdd freqMhz b) else frequency
  | [p0, p1, p2, p3, p4, p5, p6] =>
    if frequency = 0 then 0
    else
      let f := frequency
      let f2 := qMul f f
      qAdd (qAdd (qAdd (qAdd (qAdd (qAdd (qDiv p0 f2) (qDiv p1 f)) p2) (qMul p3 f))
        (qMul p4 f2)) (qMul p5 (qMul f2 f))) (qMul p6 (qMul f2 f2))
  | _ => frequency

/-! ## Scan index (scan_index.rs) and version table (version.rs) -/

/-- scan_index_entry_size (version.rs:34): documented ScanIndex entry size. -/
def scanIndexEntrySize (version : Nat) : Nat :=
  if version ≥ 65 then 88 else if version ≥ 64 then 80 else 72

/-- Exact rational value of the f64 literal -0.1 used by is_valid_stride. -/
def f64NegPointOne : ℚ := mkRat (-3602879701896397) 36028797018963968

/-- Exact rational value of the f64 literal 0.001 used by is_valid_stride. -/
def f64PointOhOhOne : ℚ := mkRat 1152921504606847 1152921504606846976

/-- The loop body of is_valid_stride (scan_index.rs:102): walks the first
min(n_scans, 5) candidate records; i is the record counter, the second
argument the remaining iteration count, prevRt the previous retention time
(initially -1.0). -/
def validStrideLoop (d : Bytes) (start stride : Nat) : Nat → Nat → ℚ → Bool
  | _, 0, _ => true
  | i, k + 1, prevRt =>
    let pos := start + i * stride
    if d.length < pos + 72 then false
    else
      let rt := qOfF64Bits (leNat d (pos + 24) 8)
      if ¬ (f64NegPointOne ≤ rt ∧ rt ≤ 1440) ∨ rt < qSub prevRt f64PointOhOhOne then false
      else validStrideLoop d start stride (i + 1) k rt

/-- is_valid_stride (scan_index.rs:102): accept a candidate entry size when
the retention times at relative offset +24 of the first up-to-five records
are plausible. -/
def isValidStride (d : Bytes) (offset nScans stride : Nat) : Bool :=
  validStrideLoop d offset stride 0 (min nScans 5) (-1)

/-- detect_entry_size (scan_index.rs:82): empirical stride validation with a
fallback to 72 bytes. -/
def detectEntrySize (d : Bytes) (offset nScans version : Nat) : Nat :=
  let documented := scanIndexEntrySize version
  if nScans < 3 then documented
  else if isValidStride d offset nScans documented then documented
  else if documented ≠ 72 ∧ isValidStride d offset nScans 72 then 72
  else documented

/-- Modelled from the spec (claim C6): acceptance predicate stated by the
spec sentence, for comparison with the code predicate isValidStride: every
retention time of the first up-to-five records lies in the half-open
interval (-0.1, 1440] and the sequence is monotonically non-decreasing.
The spec bound -0.1 is read as the same f64 literal the code uses. -/
def specStrideAccepts (d : Bytes) (offset nScans stride : Nat) : Prop :=
  (∀ i < min nScans 5,
    f64NegPointOne < qOfF64Bits (leNat d (offset + i * stride + 24) 8) ∧
    qOfF64Bits (leNat d (offset + i * stride + 24) 8) ≤ 1440) ∧
  (∀ j < min nScans 5, ∀ i ≤ j,
    qOfF64Bits (leNat d (offset + i * stride + 24) 8) ≤
      qOfF64Bits (leNat d (offset + j * stride + 24) 8))

instance (d : Bytes) (offset nScans stride : Nat) :
    Decidable (specStrideAccepts d offset nScans stride) := by
  unfold specStrideAccepts
  infer_instance

/-- A parsed scan index entry (scan_index.rs, struct ScanIndexEntry). -/
structure ScanIndexEntry where
  offset : Nat
  trailerOffset : Int
  scanEvent : Nat
  scanSegment : Nat
  scanNumber : Int
  packetType : Nat
  numberPackets : Int
  dataSize : Nat
  rt : ℚ
  tic : ℚ
  basePeakIntensity : ℚ
  basePeakMz : ℚ
  lowMz : ℚ
  highMz : ℚ
  cycleNumber : Int
deriving DecidableEq

/-! ## File locator (raw_file.rs:1344, find_finnigan_magic) -/

/-- The candidate test inside the search loop of find_finnigan_magic:
the two magic bytes 0x01 0xA1 (little-endian 0xA101) at offset i, a readable
u32 at offset i+36, and that version in (0, 200]. -/
def validMagicAt (d : Bytes) (i : Nat) : Bool :=
  if byteAt d i = 0x01 ∧ byteAt d (i + 1) = 0xA1 then
    if i + 40 ≤ d.length then
      let ver := leNat d (i + 36) 4
      decide (0 < ver ∧ ver ≤ 200)
    else false
  else false

/-- The search loop of find_finnigan_magic: i is the current candidate
offset, the second argument the number of remaining iterations. -/
def magicSearchGo (d : Bytes) (i : Nat) : Nat → Option Nat
  | 0 => none
  | fuel + 1 => if validMagicAt d i then some i else magicSearchGo d (i + 1) fuel

/-- find_finnigan_magic (raw_file.rs:1344): scan offsets
0 .. min(len, 65536) - 1 (exclusive) for a validated magic. -/
def findFinniganMagic (d : Bytes) : Option Nat :=
  magicSearchGo d 0 (min d.length 65536 - 1)

/-- Errors producible by the stages of RawFile::from_data after the magic
search.  Inspection of raw_file.rs:104-181 shows every error of those stages
is a CorruptedData wrap (parse_error), UnsupportedVersion, or StreamNotFound;
none constructs NotRawFile (the FileHeader parser can, but from_data wraps
its errors into CorruptedData).  This type makes that observation explicit:
it has no notRawFile constructor. -/
inductive RestErr where
  | io : RestErr
  | unsupportedVersion (v : Nat) : RestErr
  | streamNotFound : RestErr
  | scanOutOfRange (n : Nat) : RestErr
  | scanDecodeError (offset : Nat) : RestErr
  | corruptedData : RestErr
  | cfbError : RestErr
deriving DecidableEq

/-- Injection of the later-stage errors into the full error enumeration. -/
def RestErr.toRawErr : RestErr → RawErr
  | .io => .io
  | .unsupportedVersion v => .unsupportedVersion v
  | .streamNotFound => .streamNotFound
  | .scanOutOfRange n => .scanOutOfRange n
  | .scanDecodeError o => .scanDecodeError o
  | .corruptedData => .corruptedData
  | .cfbError => .cfbError

/-- The head of RawFile::from_data (raw_file.rs:104-105): find the Finnigan
magic, mapping a failed search to NotRawFile; on success the remaining
stages (abstracted as rest, starting the parse at the found offset) run. -/
def fromDataMagicStep (d : Bytes) (rest : Nat → Except RestErr Unit) :
    Except RawErr Unit :=
  match findFinniganMagic d with
  | none => .error .notRawFile
  | some i => (rest i).mapError RestErr.toRawErr

/-! ## Trailer layout (trailer.rs) -/

/-- A field descriptor in the GenericDataHeader (trailer.rs:17). -/
structure GenericDataDescriptor where
  typeCode : Nat
  length : Nat
  label : String
deriving DecidableEq

/-- Parsed GenericDataHeader (trailer.rs:28). -/
structure GenericDataHeader where
  descriptors : List GenericDataDescriptor
  recordsOffset : Nat
deriving DecidableEq

/-- field_byte_size (trailer.rs:56): wire width of a field, determined by
type code; string types and unknown codes take the declared length. -/
def fieldByteSize (desc : GenericDataDescriptor) : Nat :=
  if desc.typeCode = 0x00 then 0
  else if desc.typeCode = 0x01 ∨ desc.typeCode = 0x02 ∨ desc.typeCode = 0x07 ∨
      desc.typeCode = 0x03 ∨ desc.typeCode = 0x04 then 1
  else if desc.typeCode = 0x08 ∨ desc.typeCode = 0x09 ∨ desc.typeCode = 0x05 ∨
      desc.typeCode = 0x0A then 4
  else if desc.typeCode = 0x06 ∨ desc.typeCode = 0x0B then 8
  else if desc.typeCode = 0x0C ∨ desc.typeCode = 0x0D then desc.length
  else desc.length

/-- Modelled from the spec (claim C8): the width table exactly as the claim
phrases it, for comparison with the code table fieldByteSize. -/
def specFieldWidth (desc : GenericDataDescriptor) : Nat :=
  if desc.typeCode = 0x00 then 0
  else if desc.typeCode = 0x01 ∨ desc.typeCode = 0x02 ∨ desc.typeCode = 0x03 ∨
      desc.typeCode = 0x04 ∨ desc.typeCode = 0x07 then 1
  else if desc.typeCode = 0x05 ∨ desc.typeCode = 0x08 ∨ desc.typeCode = 0x09 ∨
      desc.typeCode = 0x0A then 4
  else if desc.typeCode = 0x06 ∨ desc.typeCode = 0x0B then 8
  else desc.length

/-- The offset-accumulation loop of TrailerLayout::from_header
(trailer.rs:104-111): returns the per-field byte offsets (prefix sums
starting at acc) and the final cursor (the record size when acc = 0). -/
def layoutOffsets (descs : List GenericDataDescriptor) (acc : Nat) :
    List Nat × Nat :=
  match descs with
  | [] => ([], acc)
  | dsc :: rest =>
    let res := layoutOffsets rest (acc + fieldByteSize dsc)
    (acc :: res.1, res.2)

/-- Pre-computed trailer layout (trailer.rs:83).  The cached label indices
(filter_text_idx and friends) only memoize find_field lookups over the label
strings; no claim refers to them and they are omitted here. -/
structure TrailerLayout where
  header : GenericDataHeader
  recordSize : Nat
  fieldOffsets : List Nat
deriving DecidableEq

/-- TrailerLayout::from_header (trailer.rs:104): accumulate field offsets
and total record size. -/
def TrailerLayout.fromHeader (header : GenericDataHeader) : TrailerLayout :=
  let res := layoutOffsets header.descriptors 0
  { header := header, recordSize := res.2, fieldOffsets := res.1 }

/-! ## Scan surface types (types.rs) -/

/-- MS scan level (types.rs). -/
inductive MsLevel where
  | ms1 : MsLevel
  | ms2 : MsLevel
  | ms3 : MsLevel
  | other (n : Nat) : MsLevel
deriving DecidableEq

/-- Polarity (types.rs). -/
inductive Polarity where
  | positive : Polarity
  | negative : Polarity
  | unknown : Polarity
deriving DecidableEq

/-- MS2+ precursor information (types.rs). -/
structure PrecursorInfo where
  mz : ℚ
  charge : Option Int
  isolationWidth : Option ℚ
  activationType : Option String
  collisionEnergy : Option ℚ
deriving DecidableEq

/-- A decoded scan (types.rs, struct Scan). -/
structure Scan where
  scanNumber : Nat
  rt : ℚ
  msLevel : MsLevel
  polarity : Polarity
  tic : ℚ
  basePeakMz : ℚ
  basePeakIntensity : ℚ
  centroidMz : List ℚ
  centroidIntensity : List ℚ
  profileMz : Option (List ℚ)
  profileIntensity : Option (List ℚ)
  precursor : Option PrecursorInfo
  filterString : Option String
deriving DecidableEq

/-- A chromatogram: parallel retention-time and intensity arrays (types.rs). -/
structure Chromatogram where
  rt : List ℚ
  intensity : List ℚ
deriving DecidableEq

instance : Inhabited Chromatogram := ⟨⟨[], []⟩⟩

/-! ## Legacy packet decoding (scan_data.rs, scan_data_centroid.rs,
scan_data_profile.rs) -/

/-- The legacy 40-byte ScanDataPacket header (scan_data.rs:17). -/
structure PacketHeader where
  unknown1 : Nat
  profileSize : Nat
  peakListSize : Nat
  layout : Nat
  descriptorListSize : Nat
  unknownStreamSize : Nat
  tripletStreamSize : Nat
  unknown2 : Nat
  lowMz : ℚ
  highMz : ℚ
deriving DecidableEq

/-- PacketHeader::parse (scan_data.rs:37): ten sequential reads. -/
def PacketHeader.parse (d : Bytes) (pos : Nat) :
    Except RawErr (PacketHeader × Nat) := do
  let (unknown1, p) ← readU32 d pos
  let (profileSize, p) ← readU32 d p
  let (peakListSize, p) ← readU32 d p
  let (layout, p) ← readU32 d p
  let (descriptorListSize, p) ← readU32 d p
  let (unknownStreamSize, p) ← readU32 d p
  let (tripletStreamSize, p) ← readU32 d p
  let (unknown2, p) ← readU32 d p
  let (lowMz, p) ← readF32 d p
  let (highMz, p) ← readF32 d p
  .ok ({ unknown1, profileSize, peakListSize, layout, descriptorListSize,
         unknownStreamSize, tripletStreamSize, unknown2, lowMz, highMz }, p)

/-- The peak-pair extraction loop of decode_centroid (scan_data_centroid.rs:38):
count interleaved pairs of f32 m/z and f32 intensity, 8 bytes per peak. -/
def readPairsF32 (d : Bytes) (pos : Nat) : Nat → List ℚ × List ℚ
  | 0 => ([], [])
  | k + 1 =>
    let rest := readPairsF32 d (pos + 8) k
    (qOfF32Bits (leNat d pos 4) :: rest.1, qOfF32Bits (leNat d (pos + 4) 4) :: rest.2)

/-- decode_centroid (scan_data_centroid.rs:14): u32 peak count, sanity guard
at 10 million, then the batch slice read of count peaks. -/
def decodeCentroid (d : Bytes) (offset : Nat) :
    Except RawErr (List ℚ × List ℚ) := do
  let (count, p) ← readU32 d offset
  if 10000000 < count then .error (.scanDecodeError offset)
  else if count = 0 then .ok ([], [])
  else if d.length < p + count * 8 then .error .corruptedData
  else .ok (readPairsF32 d p count)

/-- decode_legacy_centroids_only (scan_data.rs:88): parse the 40-byte header,
skip the profile section, decode the peak list. -/
def decodeLegacyCentroidsOnly (d : Bytes) (absOffset : Nat) :
    Except RawErr (List ℚ × List ℚ) := do
  let (header, p) ← PacketHeader.parse d absOffset
  let p ← if 0 < header.profileSize then skipBytes d p (header.profileSize * 4) else pure p
  if 0 < header.peakListSize then decodeCentroid d p else .ok ([], [])

/-- The signal slice read of a profile chunk (scan_data_profile.rs:66):
count f32 intensities. -/
def readF32List (d : Bytes) (pos : Nat) : Nat → List ℚ
  | 0 => []
  | k + 1 => qOfF32Bits (leNat d pos 4) :: readF32List d (pos + 4) k

/-- The m/z values of one profile chunk (scan_data_profile.rs:74-75):
m/z of sample i is first_value + (first_bin + i) * step. -/
def profileChunkMzs (firstValue step : ℚ) (firstBin count : Nat) : List ℚ :=
  (List.range count).map (fun i => qAdd firstValue (qMul ((firstBin + i : Nat) : ℚ) step))

/-- The chunk loop of decode_profile (scan_data_profile.rs:51-82). -/
def profileChunksLoop (d : Bytes) (layout : Nat) (firstValue step : ℚ) :
    Nat → Nat → Except RawErr (List ℚ × List ℚ)
  | _, 0 => .ok ([], [])
  | pos, k + 1 => do
    let (firstBin, p) ← readU32 d pos
    let (chunkNbins, p) ← readU32 d p
    let p ← if 0 < layout then do
        let r ← readF32 d p
        pure r.2
      else pure p
    if d.length < p + chunkNbins * 4 then .error .corruptedData
    else do
      let sig := readF32List d p chunkNbins
      let mzs := profileChunkMzs firstValue step firstBin chunkNbins
      let rest ← profileChunksLoop d layout firstValue step (p + chunkNbins * 4) k
      .ok (mzs ++ rest.1, sig ++ rest.2)

/-- decode_profile (scan_data_profile.rs:20): profile header, sanity guards
at 1 million chunks and 100 million bins, then the chunk loop. -/
def decodeProfile (d : Bytes) (offset layout : Nat) :
    Except RawErr (List ℚ × List ℚ) := do
  let (firstValue, p) ← readF64 d offset
  let (step, p) ← readF64 d p
  let (peakCount, p) ← readU32 d p
  let (nbinsTotal, _) ← readU32 d p
  if peakCount = 0 ∨ nbinsTotal = 0 then .ok ([], [])
  else if 1000000 < peakCount ∨ 100000000 < nbinsTotal then
    .error (.scanDecodeError offset)
  else profileChunksLoop d layout firstValue step (p + 4) peakCount

/-! ## FT/LT packet decoding (scan_data_ftlt.rs) -/

/-- The FT/LT 32-byte PacketHeaderStruct (scan_data_ftlt.rs:17). -/
structure FtLtPacketHeader where
  numSegments : Nat
  numProfileWords : Nat
  numCentroidWords : Nat
  defaultFeatureWord : Nat
  numNonDefaultFeatureWords : Nat
  numExpansionWords : Nat
  numNoiseInfoWords : Nat
  numDebugInfoWords : Nat
deriving DecidableEq

/-- FtLtPacketHeader::parse (scan_data_ftlt.rs:31): eight u32 reads. -/
def FtLtPacketHeader.parse (d : Bytes) (pos : Nat) :
    Except RawErr (FtLtPacketHeader × Nat) := do
  let (numSegments, p) ← readU32 d pos
  let (numProfileWords, p) ← readU32 d p
  let (numCentroidWords, p) ← readU32 d p
  let (defaultFeatureWord, p) ← readU32 d p
  let (numNonDefaultFeatureWords, p) ← readU32 d p
  let (numExpansionWords, p) ← readU32 d p
  let (numNoiseInfoWords, p) ← readU32 d p
  let (numDebugInfoWords, p) ← readU32 d p
  .ok ({ numSegments, numProfileWords, numCentroidWords, defaultFeatureWord,
         numNonDefaultFeatureWords, numExpansionWords, numNoiseInfoWords,
         numDebugInfoWords }, p)

/-- Bit 0x40 of the feature word selects LT (linear trap) mode. -/
def FtLtPacketHeader.isLtMode (h : FtLtPacketHeader) : Bool :=
  decide (h.defaultFeatureWord &&& 0x40 ≠ 0)

/-- Bit 0x10000 of the feature word selects accurate-mass centroids. -/
def FtLtPacketHeader.isAccurateMass (h : FtLtPacketHeader) : Bool :=
  decide (h.defaultFeatureWord &&& 0x10000 ≠ 0)

/-- Bytes per centroid peak: 12 for accurate mass (f64 + f32), else 8. -/
def FtLtPacketHeader.bytesPerCentroidPeak (h : FtLtPacketHeader) : Nat :=
  if h.isAccurateMass then 12 else 8

/-- The sequential per-peak read loop of decode_ftlt_centroids
(scan_data_ftlt.rs:194-203); returns the peak lists and the end position. -/
def ftltPeaksSeq (d : Bytes) (accurate : Bool) :
    Nat → Nat → Except RawErr (List ℚ × List ℚ × Nat)
  | pos, 0 => .ok ([], [], pos)
  | pos, k + 1 => do
    let (mz, p) ← if accurate then readF64 d pos else readF32 d pos
    let (intensity, p) ← readF32 d p
    let rest ← ftltPeaksSeq d accurate p k
    .ok (mz :: rest.1, intensity :: rest.2.1, rest.2.2)

/-- The per-segment loop of decode_ftlt_centroids (scan_data_ftlt.rs:185):
u32 peak count with the 10-million sanity guard (CorruptedData), then the
peaks. -/
def ftltCentroidSegLoop (d : Bytes) (accurate : Bool) :
    Nat → Nat → Except RawErr (List ℚ × List ℚ × Nat)
  | pos, 0 => .ok ([], [], pos)
  | pos, s + 1 => do
    let (count, p) ← readU32 d pos
    if 10000000 < count then .error .corruptedData
    else do
      let pk ← ftltPeaksSeq d accurate p count
      let rest ← ftltCentroidSegLoop d accurate pk.2.2 s
      .ok (pk.1 ++ rest.1, pk.2.1 ++ rest.2.1, rest.2.2)

/-- decode_ftlt_centroids (scan_data_ftlt.rs:167): per-segment sequential
centroid decoding at the given position. -/
def decodeFtltCentroids (d : Bytes) (pos : Nat) (header : FtLtPacketHeader) :
    Except RawErr (List ℚ × List ℚ × Nat) :=
  ftltCentroidSegLoop d header.isAccurateMass pos header.numSegments

/-- The per-word loop of decode_ftlt_profile (scan_data_ftlt.rs:257-272):
u32 bits reinterpreted as f32 intensity; abscissa base + idx * spacing,
converted through the frequency polynomial in FT mode when coefficients are
present. -/
def ftltWordsLoop (d : Bytes) (params : List ℚ) (isFt : Bool)
    (base spacing : ℚ) : Nat → Nat → Nat → Except RawErr (List ℚ × List ℚ × Nat)
  | _, pos, 0 => .ok ([], [], pos)
  | idx, pos, k + 1 => do
    let (bits, p) ← readU32 d pos
    let intensity := qOfF32Bits bits
    let abscissa := qAdd base (qMul ((idx : Nat) : ℚ) spacing)
    let mz := if isFt ∧ params ≠ [] then frequencyToMz abscissa params else abscissa
    let rest ← ftltWordsLoop d params isFt base spacing (idx + 1) p k
    .ok (mz :: rest.1, intensity :: rest.2.1, rest.2.2)

/-- The sub-segment loop of decode_ftlt_profile (scan_data_ftlt.rs:244-273):
u32 start index, u32 word count with the 10-million guard (CorruptedData),
then the words. -/
def ftltSubsegLoop (d : Bytes) (params : List ℚ) (isFt : Bool)
    (base spacing : ℚ) : Nat → Nat → Except RawErr (List ℚ × List ℚ × Nat)
  | pos, 0 => .ok ([], [], pos)
  | pos, k + 1 => do
    let (startIndex, p) ← readU32 d pos
    let (wordCount, p) ← readU32 d p
    if 10000000 < wordCount then .error .corruptedData
    else do
      let w ← ftltWordsLoop d params isFt base spacing startIndex p wordCount
      let rest ← ftltSubsegLoop d params isFt base spacing w.2.2 k
      .ok (w.1 ++ rest.1, w.2.1 ++ rest.2.1, rest.2.2)

/-- The per-segment loop of decode_ftlt_profile (scan_data_ftlt.rs:228-274):
32-byte ProfileSegmentStruct (f64 base, f64 spacing, u32 sub-segment count
with the 100000 guard, u32 expanded-word count, 8 bytes padding), then the
sub-segments. -/
def ftltProfileSegLoop (d : Bytes) (params : List ℚ) (isFt : Bool) :
    Nat → Nat → Except RawErr (List ℚ × List ℚ × Nat)
  | pos, 0 => .ok ([], [], pos)
  | pos, s + 1 => do
    let (base, p) ← readF64 d pos
    let (spacing, p) ← readF64 d p
    let (numSubsegments, p) ← readU32 d p
    let (_numExpandedWords, p) ← readU32 d p
    let p ← skipBytes d p 8
    if 100000 < numSubsegments then .error .corruptedData
    else do
      let sub ← ftltSubsegLoop d params isFt base spacing p numSubsegments
      let rest ← ftltProfileSegLoop d params isFt sub.2.2 s
      .ok (sub.1 ++ rest.1, sub.2.1 ++ rest.2.1, rest.2.2)

/-- decode_ftlt_profile (scan_data_ftlt.rs:219). -/
def decodeFtltProfile (d : Bytes) (pos : Nat) (header : FtLtPacketHeader)
    (params : List ℚ) (isFt : Bool) : Except RawErr (List ℚ × List ℚ × Nat) :=
  ftltProfileSegLoop d params isFt pos header.numSegments

/-- Decoded result of an FT/LT scan (scan_data_ftlt.rs:74). -/
structure FtLtScanResult where
  centroidMz : List ℚ
  centroidIntensity : List ℚ
  profileMz : Option (List ℚ)
  profileIntensity : Option (List ℚ)
deriving DecidableEq

/-- decode_ftlt_scan (scan_data_ftlt.rs:87): header, segment mass ranges
(read and discarded; the sequential f32 reads succeed exactly when the
8 * num_segments bytes are available), profile section for packet types
19/21 (errors swallowed, cursor snapped past the declared profile words),
then the centroid section (errors swallowed likewise). -/
def decodeFtltScan (d : Bytes) (absOffset packetTypeId : Nat)
    (params : List ℚ) : Except RawErr FtLtScanResult := do
  let (header, p0) ← FtLtPacketHeader.parse d absOffset
  let p1 ← skipBytes d p0 (header.numSegments * 8)
  let profileBytes := header.numProfileWords * 4
  let prof : Option (List ℚ) × Option (List ℚ) :=
    if (packetTypeId = 19 ∨ packetTypeId = 21) ∧ 0 < header.numProfileWords then
      match decodeFtltProfile d p1 header params (!header.isLtMode) with
      | .ok r => (some r.1, some r.2.1)
      | .error _ => (none, none)
    else (none, none)
  let p2 := p1 + profileBytes
  let cent : List ℚ × List ℚ :=
    if 0 < header.numCentroidWords then
      match decodeFtltCentroids d p2 header with
      | .ok r => (r.1, r.2.1)
      | .error _ => ([], [])
    else ([], [])
  .ok { centroidMz := cent.1, centroidIntensity := cent.2,
        profileMz := prof.1, profileIntensity := prof.2 }

/-- The accurate-mass batch peak read of decode_ftlt_centroids_only
(scan_data_ftlt.rs:332-339): f64 m/z + f32 intensity, 12 bytes per peak. -/
def ftltPeaksAccurate (d : Bytes) (pos : Nat) : Nat → List ℚ × List ℚ
  | 0 => ([], [])
  | k + 1 =>
    let rest := ftltPeaksAccurate d (pos + 12) k
    (qOfF64Bits (leNat d pos 8) :: rest.1, qOfF32Bits (leNat d (pos + 8) 4) :: rest.2)

/-- The standard batch peak read of decode_ftlt_centroids_only
(scan_data_ftlt.rs:341-349): f32 m/z + f32 intensity, 8 bytes per peak. -/
def ftltPeaksStandard (d : Bytes) (pos : Nat) : Nat → List ℚ × List ℚ
  | 0 => ([], [])
  | k + 1 =>
    let rest := ftltPeaksStandard d (pos + 8) k
    (qOfF32Bits (leNat d pos 4) :: rest.1, qOfF32Bits (leNat d (pos + 4) 4) :: rest.2)

/-- The per-segment loop of decode_ftlt_centroids_only
(scan_data_ftlt.rs:316-351): count, guard, batch slice of count peaks. -/
def ftltCentroidsOnlySegLoop (d : Bytes) (accurate : Bool) (bpp : Nat) :
    Nat → Nat → Except RawErr (List ℚ × List ℚ)
  | _, 0 => .ok ([], [])
  | pos, s + 1 => do
    let (count, p) ← readU32 d pos
    if 10000000 < count then .error .corruptedData
    else if count = 0 then ftltCentroidsOnlySegLoop d accurate bpp p s
    else
      let peakBytes := count * bpp
      if d.length < p + peakBytes then .error .corruptedData
      else do
        let pk := if accurate then ftltPeaksAccurate d p count else ftltPeaksStandard d p count
        let rest ← ftltCentroidsOnlySegLoop d accurate bpp (p + peakBytes) s
        .ok (pk.1 ++ rest.1, pk.2 ++ rest.2)

/-- decode_ftlt_centroids_only (scan_data_ftlt.rs:283): header, skip segment
ranges and the whole profile section, then batch-decode centroids. -/
def decodeFtltCentroidsOnly (d : Bytes) (absOffset : Nat) :
    Except RawErr (List ℚ × List ℚ) := do
  let (header, p) ← FtLtPacketHeader.parse d absOffset
  let p ← skipBytes d p (header.numSegments * 8)
  let profileBytes := header.numProfileWords * 4
  let p ← if 0 < profileBytes then skipBytes d p profileBytes else pure p
  if header.numCentroidWords = 0 then .ok ([], [])
  else
    ftltCentroidsOnlySegLoop d header.isAccurateMass header.bytesPerCentroidPeak
      p header.numSegments

/-! ## Scan dispatch (scan_data.rs) -/

/-- The bounds test at the head of decode_scan, decode_centroids_only and
both summation entry points (scan_data.rs:66-72, 263-286): with a declared
data size the scan must fit inside the buffer, otherwise the offset itself
must be inside. -/
def entryOutOfBounds (d : Bytes) (dataAddr : Nat) (e : ScanIndexEntry) : Bool :=
  let absOffset := dataAddr + e.offset
  if 0 < e.dataSize then decide (d.length < absOffset + e.dataSize)
  else decide (d.length ≤ absOffset)

/-- The packet-type codes dispatched to a decoder by decode_scan and
decode_centroids_only: the FT/LT family 18..21 and the legacy families 0..5
and 14..17. -/
def knownPacketTypeId (t : Nat) : Bool :=
  decide ((18 ≤ t ∧ t ≤ 21) ∨ t ≤ 5 ∨ (14 ≤ t ∧ t ≤ 17))

/-- decode_centroids_only (scan_data.rs:59): bounds check (out of bounds is
an empty Ok, not an error), the empty-scan case, then dispatch on the low
16 bits of the packet type with an empty Ok for unknown codes. -/
def decodeCentroidsOnly (d : Bytes) (dataAddr : Nat) (e : ScanIndexEntry) :
    Except RawErr (List ℚ × List ℚ) :=
  let absOffset := dataAddr + e.offset
  if entryOutOfBounds d dataAddr e then .ok ([], [])
  else if e.numberPackets = 0 ∧ e.dataSize = 0 then .ok ([], [])
  else
    let packetTypeId := e.packetType &&& 0xFFFF
    if 18 ≤ packetTypeId ∧ packetTypeId ≤ 21 then decodeFtltCentroidsOnly d absOffset
    else if packetTypeId ≤ 5 ∨ (14 ≤ packetTypeId ∧ packetTypeId ≤ 17) then
      decodeLegacyCentroidsOnly d absOffset
    else .ok ([], [])

/-- The empty scan with passthrough index scalars that decode_scan returns
for the empty-scan case and for unknown packet types (scan_data.rs:289-305
and 323-337; the source spells the identical struct literal twice). -/
def emptyScanOf (scanNumber : Nat) (e : ScanIndexEntry) : Scan :=
  { scanNumber := scanNumber, rt := e.rt, msLevel := .ms1,
    polarity := .unknown, tic := e.tic, basePeakMz := e.basePeakMz,
    basePeakIntensity := e.basePeakIntensity, centroidMz := [],
    centroidIntensity := [], profileMz := none, profileIntensity := none,
    precursor := none, filterString := none }

/-- decode_scan_legacy (scan_data.rs:371): 40-byte header; profile and
centroid sections decoded with errors swallowed and the cursor snapped past
each section by its declared word count. -/
def decodeScanLegacy (d : Bytes) (absOffset : Nat) (e : ScanIndexEntry)
    (scanNumber : Nat) : Except RawErr Scan := do
  let (header, p) ← PacketHeader.parse d absOffset
  let prof : (Option (List ℚ) × Option (List ℚ)) × Nat :=
    if 0 < header.profileSize then
      match decodeProfile d p header.layout with
      | .ok r => ((some r.1, some r.2), p + header.profileSize * 4)
      | .error _ => ((none, none), p + header.profileSize * 4)
    else ((none, none), p)
  let cent : List ℚ × List ℚ :=
    if 0 < header.peakListSize then
      match decodeCentroid d prof.2 with
      | .ok r => r
      | .error _ => ([], [])
    else ([], [])
  .ok { scanNumber := scanNumber, rt := e.rt, msLevel := .ms1,
        polarity := .unknown, tic := e.tic, basePeakMz := e.basePeakMz,
        basePeakIntensity := e.basePeakIntensity, centroidMz := cent.1,
        centroidIntensity := cent.2, profileMz := prof.1.1,
        profileIntensity := prof.1.2, precursor := none, filterString := none }

/-- decode_scan_ftlt (scan_data.rs:342): FT/LT decode plus the index-scalar
passthrough into the Scan record. -/
def decodeScanFtlt (d : Bytes) (absOffset : Nat) (e : ScanIndexEntry)
    (scanNumber packetTypeId : Nat) (params : List ℚ) :
    Except RawErr Scan := do
  let result ← decodeFtltScan d absOffset packetTypeId params
  .ok { scanNumber := scanNumber, rt := e.rt, msLevel := .ms1,
        polarity := .unknown, tic := e.tic, basePeakMz := e.basePeakMz,
        basePeakIntensity := e.basePeakIntensity,
        centroidMz := result.centroidMz,
        centroidIntensity := result.centroidIntensity,
        profileMz := result.profileMz,
        profileIntensity := result.profileIntensity,
        precursor := none, filterString := none }

/-- decode_scan (scan_data.rs:254): bounds check (ScanDecodeError at the
absolute offset), empty-scan case, then dispatch on the low 16 bits of the
packet type; unknown codes return the empty scan with passthrough scalars. -/
def decodeScan (d : Bytes) (dataAddr : Nat) (e : ScanIndexEntry)
    (scanNumber : Nat) (conversionParams : List ℚ) : Except RawErr Scan :=
  let absOffset := dataAddr + e.offset
  if entryOutOfBounds d dataAddr e then .error (.scanDecodeError absOffset)
  else if e.numberPackets = 0 ∧ e.dataSize = 0 then .ok (emptyScanOf scanNumber e)
  else
    let packetTypeId := e.packetType &&& 0xFFFF
    if 18 ≤ packetTypeId ∧ packetTypeId ≤ 21 then
      decodeScanFtlt d absOffset e scanNumber packetTypeId conversionParams
    else if packetTypeId ≤ 5 ∨ (14 ≤ packetTypeId ∧ packetTypeId ≤ 17) then
      decodeScanLegacy d absOffset e scanNumber
    else .ok (emptyScanOf scanNumber e)

/-! ## Chromatogram engine (raw_file.rs: xic_inner, xic, xic_ms1,
xic_batch_ms1) -/

/-- Exact rational value of the f64 literal 1e-6 (the ppm scale factor of
the window computation; 1e-6 is not exactly representable in binary64). -/
def f64OneEMinus6 : ℚ := mkRat 4722366482869645 4722366482869645213696

/-- The window summation that both XIC paths perform over a decoded centroid
list (raw_file.rs:630-635 and 363-372): zip m/z with intensity, keep peaks
with low <= m/z <= high, sum the intensities left to right from 0. -/
def sumInWindow (cmz cint : List ℚ) (low high : ℚ) : ℚ :=
  (((cmz.zip cint).filter (fun pr => decide (low ≤ pr.1 ∧ pr.1 ≤ high))).map
    Prod.snd).foldl qAdd 0

/-- The opened-file state the chromatogram engine reads: the byte buffer,
the data-stream base address, the parsed scan index, and the is_ms1_scan
test (raw_file.rs:652; a trailer-driven predicate of the scan position that
the single and batch paths call identically — its internals are not touched
by any claim, so it is a parameter of the model). -/
structure RawFileModel where
  data : Bytes
  dataAddr : Nat
  scanIndex : List ScanIndexEntry
  isMs1 : Nat → Bool

/-- The per-entry body of the parallel map in xic_inner (raw_file.rs:609-637):
None for non-MS1 scans under the MS1 gate, a zero bin for scans pruned by
the index m/z range or failing to decode, otherwise the window sum. -/
def xicEntryResult (rf : RawFileModel) (low high : ℚ) (ms1Only : Bool)
    (idx : Nat) (e : ScanIndexEntry) : Option (ℚ × ℚ) :=
  if ms1Only ∧ ¬ rf.isMs1 idx then none
  else if 0 < e.lowMz ∧ 0 < e.highMz ∧ (e.highMz < low ∨ high < e.lowMz) then
    some (e.rt, 0)
  else
    match decodeCentroidsOnly rf.data rf.dataAddr e with
    | .error _ => some (e.rt, 0)
    | .ok r => some (e.rt, sumInWindow r.1 r.2 low high)

/-- The enumerated map of xic_inner over the scan index (raw_file.rs:605-609):
idx is the enumeration counter. -/
def xicPerScan (rf : RawFileModel) (low high : ℚ) (ms1Only : Bool) :
    Nat → List ScanIndexEntry → List (Option (ℚ × ℚ))
  | _, [] => []
  | idx, e :: rest =>
    xicEntryResult rf low high ms1Only idx e ::
      xicPerScan rf low high ms1Only (idx + 1) rest

/-- xic_inner (raw_file.rs:594): window arithmetic, per-scan map, flatten,
then split the (rt, intensity) pairs into the chromatogram arrays. -/
def xicInner (rf : RawFileModel) (targetMz tolerancePpm : ℚ)
    (ms1Only : Bool) : Chromatogram :=
  let halfWidth := qMul (qMul targetMz tolerancePpm) f64OneEMinus6
  let low := qSub targetMz halfWidth
  let high := qAdd targetMz halfWidth
  let filtered := (xicPerScan rf low high ms1Only 0 rf.scanIndex).filterMap id
  { rt := filtered.map Prod.fst, intensity := filtered.map Prod.snd }

/-- RawFile::xic (raw_file.rs:302). -/
def xic (rf : RawFileModel) (targetMz tolerancePpm : ℚ) : Chromatogram :=
  xicInner rf targetMz tolerancePpm false

/-- RawFile::xic_ms1 (raw_file.rs:311). -/
def xicMs1 (rf : RawFileModel) (targetMz tolerancePpm : ℚ) : Chromatogram :=
  xicInner rf targetMz tolerancePpm true

/-- The per-target window precomputation of xic_batch_ms1
(raw_file.rs:322-328). -/
def batchRanges (targets : List (ℚ × ℚ)) : List (ℚ × ℚ) :=
  targets.map (fun t =>
    let half := qMul (qMul t.1 t.2) f64OneEMinus6
    (qSub t.1 half, qAdd t.1 half))

/-- The per-entry body of the parallel map in xic_batch_ms1
(raw_file.rs:336-375): None for non-MS1 scans; an all-zero intensity row
when no target window overlaps the index m/z range or the decode fails;
otherwise one window sum per target. -/
def batchEntryResult (rf : RawFileModel) (ranges : List (ℚ × ℚ))
    (nTargets idx : Nat) (e : ScanIndexEntry) : Option (ℚ × List ℚ) :=
  if ¬ rf.isMs1 idx then none
  else
    let anyOverlap :=
      if 0 < e.lowMz ∧ 0 < e.highMz then
        ranges.any (fun r => decide (r.1 ≤ e.highMz) && decide (e.lowMz ≤ r.2))
      else true
    if ¬ anyOverlap then some (e.rt, List.replicate nTargets 0)
    else
      match decodeCentroidsOnly rf.data rf.dataAddr e with
      | .error _ => some (e.rt, List.replicate nTargets 0)
      | .ok r => some (e.rt, ranges.map (fun rg => sumInWindow r.1 r.2 rg.1 rg.2))

/-- The enumerated map of xic_batch_ms1 over the scan index
(raw_file.rs:332-336). -/
def batchPerScan (rf : RawFileModel) (ranges : List (ℚ × ℚ)) (nTargets : Nat) :
    Nat → List ScanIndexEntry → List (Option (ℚ × List ℚ))
  | _, [] => []
  | idx, e :: rest =>
    batchEntryResult rf ranges nTargets idx e ::
      batchPerScan rf ranges nTargets (idx + 1) rest

/-- RawFile::xic_batch_ms1 (raw_file.rs:319): windows, single decode pass,
flatten, then transpose into one chromatogram per target (every chromatogram
carries the same retention-time array). -/
def xicBatchMs1 (rf : RawFileModel) (targets : List (ℚ × ℚ)) :
    List Chromatogram :=
  let ranges := batchRanges targets
  let nTargets := targets.length
  let filtered := (batchPerScan rf ranges nTargets 0 rf.scanIndex).filterMap id
  let rts := filtered.map Prod.fst
  (List.range nTargets).map (fun t =>
    { rt := rts, intensity := filtered.map (fun pr => pr.2.getD t 0) })

/-! ## Concrete instances used by counterexamples and witnesses.

The packet buffers below follow the legacy layout of scan_data.rs: a 40-byte
header whose word at offset 8 is the peak-list word count, then at offset 40
the u32 peak count followed by interleaved f32 (m/z, intensity) pairs. -/

/-- A one-peak legacy packet: peak m/z 500.0 (f32 0x43FA0000), intensity
1000.0 (f32 0x447A0000); peak-list size 3 words. -/
def dPeak500 : Bytes :=
  List.replicate 8 0 ++ [3, 0, 0, 0] ++ List.replicate 28 0 ++ [1, 0, 0, 0] ++
    [0x00, 0x00, 0xFA, 0x43] ++ [0x00, 0x00, 0x7A, 0x44]

/-- A one-peak legacy packet: peak m/z 200.0 (f32 0x43480000), intensity
1000.0. -/
def dPeak200 : Bytes :=
  List.replicate 8 0 ++ [3, 0, 0, 0] ++ List.replicate 28 0 ++ [1, 0, 0, 0] ++
    [0x00, 0x00, 0x48, 0x43] ++ [0x00, 0x00, 0x7A, 0x44]

/-- Scan-index entry for the dPeak500 packet with no index m/z range
(low_mz = high_mz = 0 disables the pre-filter). -/
def entryPeak500 : ScanIndexEntry :=
  { offset := 0, trailerOffset := 0, scanEvent := 0, scanSegment := 0,
    scanNumber := 1, packetType := 0, numberPackets := 1, dataSize := 0,
    rt := 1, tic := 1000, basePeakIntensity := 1000, basePeakMz := 500,
    lowMz := 0, highMz := 0, cycleNumber := 0 }

/-- Opened-file state holding the single dPeak500 scan; every scan is MS1. -/
def rfPeak500 : RawFileModel :=
  { data := dPeak500, dataAddr := 0, scanIndex := [entryPeak500],
    isMs1 := fun _ => true }

/-- Scan-index entry for the dPeak200 packet whose index-level m/z range
[400, 600] does NOT contain the decoded peak at 200 (inconsistent index
metadata, the situation that separates batch XIC from single XIC). -/
def entryPeak200Mislabelled : ScanIndexEntry :=
  { offset := 0, trailerOffset := 0, scanEvent := 0, scanSegment := 0,
    scanNumber := 1, packetType := 0, numberPackets := 1, dataSize := 0,
    rt := 1, tic := 1000, basePeakIntensity := 1000, basePeakMz := 200,
    lowMz := 400, highMz := 600, cycleNumber := 0 }

/-- Opened-file state for the C1 counterexample. -/
def rfMislabelled : RawFileModel :=
  { data := dPeak200, dataAddr := 0, scanIndex := [entryPeak200Mislabelled],
    isMs1 := fun _ => true }

/-- Scan-index entry for the dPeak500 packet with a consistent index m/z
range [100, 1000] containing the decoded peak. -/
def entryPeak500Ranged : ScanIndexEntry :=
  { offset := 0, trailerOffset := 0, scanEvent := 0, scanSegment := 0,
    scanNumber := 1, packetType := 0, numberPackets := 1, dataSize := 0,
    rt := 1, tic := 1000, basePeakIntensity := 1000, basePeakMz := 500,
    lowMz := 100, highMz := 1000, cycleNumber := 0 }

/-- Opened-file state with consistent index metadata (C1 witness). -/
def rfConsistent : RawFileModel :=
  { data := dPeak500, dataAddr := 0, scanIndex := [entryPeak500Ranged],
    isMs1 := fun _ => true }

/-- An entry with unknown packet type 6 and no data size at offset 0; with
an empty buffer its offset is out of bounds. -/
def entryUnknownType : ScanIndexEntry :=
  { offset := 0, trailerOffset := 0, scanEvent := 0, scanSegment := 0,
    scanNumber := 1, packetType := 6, numberPackets := 0, dataSize := 0,
    rt := 2, tic := 5, basePeakIntensity := 7, basePeakMz := 9,
    lowMz := 0, highMz := 0, cycleNumber := 0 }

/-- An entry with known FT packet type 20 used out of bounds (C9 witness). -/
def entryFtOutOfBounds : ScanIndexEntry :=
  { offset := 3, trailerOffset := 0, scanEvent := 0, scanSegment := 0,
    scanNumber := 2, packetType := 20, numberPackets := 4, dataSize := 5,
    rt := 3, tic := 6, basePeakIntensity := 8, basePeakMz := 10,
    lowMz := 0, highMz := 0, cycleNumber := 0 }

/-- Three 72-byte scan-index records whose first retention time is the f64
bit pattern of -0.1 (0xBFB999999999999A) and whose later retention times are
0.0: the code-side stride validation accepts this, the spec-side open
interval (-0.1, 1440] rejects it. -/
def dStrideBoundary : Bytes :=
  List.replicate 24 0 ++ [0x9A, 0x99, 0x99, 0x99, 0x99, 0x99, 0xB9, 0xBF] ++
    List.replicate 40 0 ++ List.replicate 72 0 ++ List.replicate 72 0

/-- Three 72-byte all-zero scan-index records (every retention time 0.0). -/
def dStrideZeros : Bytes := List.replicate 216 0

/-- An FT/LT profile section whose first segment declares 200000
sub-segments (bytes 16..19 = 0x00030D40), beyond the 100000 sanity guard. -/
def dBadSubsegCount : Bytes :=
  List.replicate 16 0 ++ [0x40, 0x0D, 0x03, 0x00] ++ List.replicate 12 0

/-- An FT/LT profile section with one well-formed segment header declaring
one sub-segment, whose sub-segment then declares 10000001 words
(0x00989681), beyond the 10 million guard. -/
def dBadWordCount : Bytes :=
  List.replicate 16 0 ++ [1, 0, 0, 0] ++ List.replicate 12 0 ++
    [0, 0, 0, 0] ++ [0x81, 0x96, 0x98, 0x00]

/-- A centroid section declaring 10000001 peaks (0x00989681), beyond the
10 million guard. -/
def dBadPeakCount : Bytes := [0x81, 0x96, 0x98, 0x00]

/-- A one-segment FT/LT packet header with no profile or centroid words. -/
def hdrOneSegment : FtLtPacketHeader := ⟨1, 0, 0, 0, 0, 0, 0, 0⟩

/-- A 42-byte buffer with the Finnigan magic 0xA101 at offset 2 and the
version integer 60 at offset 2 + 36. -/
def dMagicAt2 : Bytes := [0, 0, 0x01, 0xA1] ++ List.replicate 34 0 ++ [60, 0, 0, 0]

/-- The trailer header of spec scenario 6: i32 Charge State, f64
Monoisotopic M/Z, one-byte Access Id flag. -/
def headerScenario6 : GenericDataHeader :=
  { descriptors :=
      [ { typeCode := 0x08, length := 4, label := "Charge State:" },
        { typeCode := 0x0B, length := 8, label := "Monoisotopic M/Z:" },
        { typeCode := 0x04, length := 1, label := "Access Id:" } ],
    recordsOffset := 0 }

/-! ## Bridge theorems: the transparent rational operations agree with the
field operations of ℚ. -/

theorem qAdd_eq (a b : ℚ) : qAdd a b = a + b := by
  rw [Rat.add_def']; rfl

theorem qMul_eq (a b : ℚ) : qMul a b = a * b := by
  rw [Rat.mul_def, Rat.normalize_eq_mkRat]; rfl

theorem qInv_eq (a : ℚ) : qInv a = a⁻¹ := by
  show qInv a = a.inv
  unfold qInv
  rw [Rat.inv_def, Rat.mkRat_eq_divInt]
  rcases lt_trichotomy a.num 0 with h | h | h
  · have hn : (a.num.natAbs : ℤ) = -a.num := by omega
    rw [Int.sign_eq_neg_one_of_neg h, hn,
      show (-1 * (a.den : ℤ)) = -(a.den : ℤ) by ring,
      Rat.divInt_neg', Int.neg_neg]
  · rw [h]; simp
  · have hn : (a.num.natAbs : ℤ) = a.num := by omega
    rw [Int.sign_eq_one_of_pos h, hn, one_mul]

theorem qSub_eq (a b : ℚ) : qSub a b = a - b := by
  unfold qSub
  rw [qAdd_eq, sub_eq_add_neg]

theorem qDiv_eq (a b : ℚ) : qDiv a b = a / b := by
  unfold qDiv
  rw [qMul_eq, qInv_eq, div_eq_mul_inv]

/-! ## Claim C3 -/

/-- C3: with zero calibration coefficients the frequency-to-m/z conversion
is the identity: freq_to_mz(f) = f for every input frequency f
(scan_event.rs:503, the empty-coefficient arm). -/
theorem c3_frequency_to_mz_zero_params_identity (f : ℚ) :
    frequencyToMz f [] = f := rfl

/-! ## Claim C10 -/

/-- C10: frequency_to_mz is total over all inputs: with 4 coefficients the
division is guarded, so a zero denominator f/1e6 + B = 0 returns the input
frequency unchanged; with 7 coefficients a zero input frequency returns 0
without dividing; any other nonzero coefficient count returns the input
frequency unchanged (scan_event.rs:501-535). -/
theorem c10_frequency_to_mz_total (f : ℚ) (p : List ℚ) :
    (p.length = 4 → f / 1000000 + p.getD 1 0 = 0 → frequencyToMz f p = f) ∧
    (p.length = 7 → f = 0 → frequencyToMz f p = 0) ∧
    (p.length ≠ 0 → p.length ≠ 4 → p.length ≠ 7 → frequencyToMz f p = f) := by
  rcases p with _ | ⟨a, _ | ⟨b, _ | ⟨c3, _ | ⟨c4, _ | ⟨c5, _ | ⟨c6, _ | ⟨c7, _ | ⟨c8, rest⟩⟩⟩⟩⟩⟩⟩⟩
  · exact ⟨by simp, by simp, fun h _ _ => absurd rfl h⟩
  · exact ⟨by simp, by simp, fun _ _ _ => rfl⟩
  · exact ⟨by simp, by simp, fun _ _ _ => rfl⟩
  · exact ⟨by simp, by simp, fun _ _ _ => rfl⟩
  · refine ⟨fun _ h => ?_, by simp, fun _ h _ => absurd rfl h⟩
    have hz : qAdd (qDiv f 1000000) b = 0 := by
      rw [qAdd_eq, qDiv_eq]
      simpa using h
    simp [frequencyToMz, hz]
  · exact ⟨by simp, by simp, fun _ _ _ => rfl⟩
  · exact ⟨by simp, by simp, fun _ _ _ => rfl⟩
  · refine ⟨by simp, fun _ hf => ?_, fun _ _ h => absurd rfl h⟩
    subst hf
    simp [frequencyToMz]
  · exact ⟨by simp, by simp, fun _ _ _ => rfl⟩

/-- Witness for C10 at concrete inputs: coefficient vector [7, -1, 0, 0]
with f = 1000000 hits the guarded zero denominator; a 7-vector at f = 0
returns 0; a 2-vector is an unrecognised count and acts as the identity. -/
theorem c10_frequency_to_mz_total_witness :
    frequencyToMz 1000000 [7, -1, 0, 0] = 1000000 ∧
    frequencyToMz 0 [1, 1, 1, 1, 1, 1, 1] = 0 ∧
    frequencyToMz 5 [1, 2] = 5 :=
  ⟨(c10_frequency_to_mz_total 1000000 [7, -1, 0, 0]).1 (by simp) (by norm_num),
   (c10_frequency_to_mz_total 0 [1, 1, 1, 1, 1, 1, 1]).2.1 (by simp) rfl,
   (c10_frequency_to_mz_total 5 [1, 2]).2.2 (by simp) (by simp) (by simp)⟩

/-! ## Claim C7 -/

theorem magicSearchGo_none_iff (d : Bytes) :
    ∀ fuel i, magicSearchGo d i fuel = none ↔
      ∀ k < fuel, validMagicAt d (i + k) = false := by
  intro fuel
  induction fuel with
  | zero => intro i; simp [magicSearchGo]
  | succ n ih =>
    intro i
    simp only [magicSearchGo]
    cases hv : validMagicAt d i with
    | true =>
      simp only [if_pos rfl, reduceIte]
      constructor
      · intro hc; exact absurd hc (by simp)
      · intro hall
        have h0 := hall 0 (Nat.succ_pos n)
        rw [Nat.add_zero] at h0
        rw [hv] at h0
        exact absurd h0 (by simp)
    | false =>
      rw [if_neg (by simp [hv])]
      rw [ih (i + 1)]
      constructor
      · intro hall k hk
        cases k with
        | zero => simpa using hv
        | succ m =>
          have := hall m (by omega)
          simpa [Nat.add_assoc, Nat.add_comm 1 m] using this
      · intro hall k hk
        have := hall (k + 1) (by omega)
        simpa [Nat.add_assoc, Nat.add_comm 1 k] using this

theorem magicSearchGo_some (d : Bytes) :
    ∀ fuel i j, magicSearchGo d i fuel = some j →
      validMagicAt d j = true ∧ i ≤ j ∧
        ∀ k, i ≤ k → k < j → validMagicAt d k = false := by
  intro fuel
  induction fuel with
  | zero => intro i j h; simp [magicSearchGo] at h
  | succ n ih =>
    intro i j h
    simp only [magicSearchGo] at h
    cases hv : validMagicAt d i with
    | true =>
      rw [if_pos (by simp [hv])] at h
      obtain rfl : i = j := by simpa using h
      exact ⟨hv, Nat.le_refl i, fun k hk1 hk2 => absurd (Nat.lt_of_le_of_lt hk1 hk2) (lt_irrefl i)⟩
    | false =>
      rw [if_neg (by simp [hv])] at h
      obtain ⟨h1, h2, h3⟩ := ih (i + 1) j h
      refine ⟨h1, by omega, fun k hk1 hk2 => ?_⟩
      rcases Nat.eq_or_lt_of_le hk1 with rfl | hlt
      · exact hv
      · exact h3 k (by omega) hk2

/-- C7: open fails with NotRawFile exactly when no byte offset within the
first 64 KiB holds the two-byte tag 0xA101 with a version integer at +36 in
(0, 200] (raw_file.rs:104-105 and 1344-1361): the three parts state the
NotRawFile iff, the characterisation of a failed search over all candidate
offsets (a tag at offset i lies within the first 64 KiB when i + 1 <
min(len, 65536)), and that a successful search returns the first (lowest)
passing offset, where parsing then starts. -/
theorem c7_not_raw_file_iff_no_magic (d : Bytes)
    (rest : Nat → Except RestErr Unit) :
    (fromDataMagicStep d rest = .error .notRawFile ↔ findFinniganMagic d = none) ∧
    (findFinniganMagic d = none ↔
      ∀ i, i + 1 < min d.length 65536 → validMagicAt d i = false) ∧
    (∀ i, findFinniganMagic d = some i →
      validMagicAt d i = true ∧ ∀ j < i, validMagicAt d j = false) := by
  refine ⟨?_, ?_, ?_⟩
  · unfold fromDataMagicStep
    cases hf : findFinniganMagic d with
    | none => simp
    | some i =>
      simp only [hf]
      constructor
      · intro hc
        cases hr : rest i with
        | ok u => rw [hr] at hc; simp [Except.mapError] at hc
        | error e =>
          rw [hr] at hc
          simp only [Except.mapError, Except.error.injEq] at hc
          cases e <;> simp [RestErr.toRawErr] at hc
      · intro hc; exact absurd hc (by simp)
  · unfold findFinniganMagic
    rw [magicSearchGo_none_iff]
    constructor
    · intro hall i hi
      have := hall i (by omega)
      simpa using this
    · intro hall k hk
      have := hall k (by omega)
      simpa using this
  · intro i hf
    unfold findFinniganMagic at hf
    obtain ⟨h1, _, h3⟩ := magicSearchGo_some d _ 0 i hf
    exact ⟨h1, fun j hj => h3 j (Nat.zero_le j) hj⟩

/-- Witness for C7: in the 42-byte buffer dMagicAt2 the search finds the
magic at offset 2, it validates there, and no smaller offset validates. -/
theorem c7_not_raw_file_iff_no_magic_witness :
    validMagicAt dMagicAt2 2 = true ∧ ∀ j < 2, validMagicAt dMagicAt2 j = false :=
  (c7_not_raw_file_iff_no_magic dMagicAt2 (fun _ => .ok ())).2.2 2 (by decide)

/-! ## Claim C8 -/

theorem layoutOffsets_snd (descs : List GenericDataDescriptor) :
    ∀ acc, (layoutOffsets descs acc).2 = acc + (descs.map fieldByteSize).sum := by
  induction descs with
  | nil => intro acc; simp [layoutOffsets]
  | cons dsc rest ih =>
    intro acc
    simp [layoutOffsets, ih, Nat.add_assoc]

theorem layoutOffsets_bound (descs : List GenericDataDescriptor) :
    ∀ acc i, (h : i < descs.length) →
      (layoutOffsets descs acc).1.getD i 0 + fieldByteSize (descs.get ⟨i, h⟩)
        ≤ (layoutOffsets descs acc).2 := by
  induction descs with
  | nil => intro acc i h; simp at h
  | cons dsc rest ih =>
    intro acc i h
    cases i with
    | zero =>
      simp only [layoutOffsets, List.getD_cons_zero, List.get]
      rw [layoutOffsets_snd]
      omega
    | succ n =>
      simp only [layoutOffsets, List.getD_cons_succ, List.get]
      exact ih (acc + fieldByteSize dsc) n (by simpa using h)

/-- C8: for every trailer layout built from a generic data header,
record_size is the sum of the per-field wire widths determined by the type
code (the width table matches the claim, including the declared-length
fallback for string and unknown codes), and every field lies inside the
record: field_offset[i] + field_width[i] <= record_size
(trailer.rs:56-66 and 104-141). -/
theorem c8_trailer_layout_invariant (header : GenericDataHeader) :
    (TrailerLayout.fromHeader header).recordSize
        = (header.descriptors.map fieldByteSize).sum ∧
    (∀ desc, fieldByteSize desc = specFieldWidth desc) ∧
    (∀ i, (h : i < header.descriptors.length) →
      (TrailerLayout.fromHeader header).fieldOffsets.getD i 0 +
          fieldByteSize (header.descriptors.get ⟨i, h⟩)
        ≤ (TrailerLayout.fromHeader header).recordSize) := by
  refine ⟨?_, ?_, ?_⟩
  · show (layoutOffsets header.descriptors 0).2 = _
    rw [layoutOffsets_snd]
    omega
  · intro desc
    unfold fieldByteSize specFieldWidth
    split_ifs <;> omega
  · intro i h
    exact layoutOffsets_bound header.descriptors 0 i h

/-- Witness for C8 at the header of spec scenario 6: the record size is the
width sum (13 bytes) and the second field (f64 Monoisotopic M/Z at offset 4)
fits inside the record. -/
theorem c8_trailer_layout_invariant_witness :
    (TrailerLayout.fromHeader headerScenario6).recordSize
        = (headerScenario6.descriptors.map fieldByteSize).sum ∧
    (TrailerLayout.fromHeader headerScenario6).fieldOffsets.getD 1 0 +
        fieldByteSize (headerScenario6.descriptors.get ⟨1, by decide⟩)
      ≤ (TrailerLayout.fromHeader headerScenario6).recordSize :=
  ⟨(c8_trailer_layout_invariant headerScenario6).1,
   (c8_trailer_layout_invariant headerScenario6).2.2 1 (by decide)⟩

/-! ## Claim C9 -/

/-- C9: the centroids-only decode path used by XIC never errors on
out-of-bounds or unrecognised entries: an entry whose absolute offset (plus
declared size when non-zero) leaves the buffer yields Ok with two empty
arrays, and an unrecognised packet type yields Ok with two empty arrays —
while decode_scan returns ScanDecodeError at the absolute offset for the
same out-of-bounds entries (scan_data.rs:59-85 versus 254-286). -/
theorem c9_decode_isolation (d : Bytes) (dataAddr : Nat) (e : ScanIndexEntry)
    (n : Nat) (params : List ℚ) :
    (entryOutOfBounds d dataAddr e = true →
      decodeCentroidsOnly d dataAddr e = .ok ([], []) ∧
      decodeScan d dataAddr e n params
        = .error (.scanDecodeError (dataAddr + e.offset))) ∧
    (knownPacketTypeId (e.packetType &&& 0xFFFF) = false →
      decodeCentroidsOnly d dataAddr e = .ok ([], [])) := by
  constructor
  · intro h
    constructor
    · unfold decodeCentroidsOnly
      simp [h]
    · unfold decodeScan
      simp [h]
  · intro h
    simp only [knownPacketTypeId, decide_eq_false_iff_not, not_or] at h
    obtain ⟨h1, h2, h3⟩ := h
    simp only [decodeCentroidsOnly]
    split_ifs with hb hemp hleg
    · rfl
    · rfl
    · rcases hleg with hx | hx
      · exact absurd hx h2
      · exact absurd hx h3
    · rfl

/-- Witness for C9: the out-of-bounds FT entry (offset 3, size 5, empty
buffer) decodes to empty arrays on the centroids-only path but to
ScanDecodeError on decode_scan, and the unknown-type entry also decodes to
empty arrays. -/
theorem c9_decode_isolation_witness :
    decodeCentroidsOnly [] 0 entryFtOutOfBounds = .ok ([], []) ∧
    decodeScan [] 0 entryFtOutOfBounds 2 [] = .error (.scanDecodeError 3) ∧
    decodeCentroidsOnly [] 0 entryUnknownType = .ok ([], []) :=
  ⟨((c9_decode_isolation [] 0 entryFtOutOfBounds 2 []).1 (by decide)).1,
   ((c9_decode_isolation [] 0 entryFtOutOfBounds 2 []).1 (by decide)).2,
   (c9_decode_isolation [] 0 entryUnknownType 2 []).2 (by decide)⟩

/-! ## Claim C4 -/

/-- Counterexample to C4 as stated: an entry whose packet type 6 lies
outside the decoded union but whose offset is out of bounds makes
decode_scan return ScanDecodeError, not Ok — the bounds check at
scan_data.rs:263-286 runs before the packet-type dispatch. -/
theorem c4_counterexample :
    knownPacketTypeId (entryUnknownType.packetType &&& 0xFFFF) = false ∧
    decodeScan [] 0 entryUnknownType 1 [] = .error (.scanDecodeError 0) := by
  constructor
  · decide
  · decide

/-- C4 (amended): for every entry that passes the bounds check, a packet
type whose low 16 bits lie outside the decoded union {0..5, 14..17, 18..21}
makes decode_scan return Ok with an empty centroid list and the index-level
scalars (rt, tic, base-peak m/z and intensity) passed through unchanged
(scan_data.rs:254-339). -/
theorem c4_unknown_packet_empty_scan (d : Bytes) (dataAddr : Nat)
    (e : ScanIndexEntry) (n : Nat) (params : List ℚ)
    (hin : entryOutOfBounds d dataAddr e = false)
    (hunk : knownPacketTypeId (e.packetType &&& 0xFFFF) = false) :
    decodeScan d dataAddr e n params = .ok (emptyScanOf n e) := by
  simp only [knownPacketTypeId, decide_eq_false_iff_not, not_or] at hunk
  obtain ⟨h1, h2, h3⟩ := hunk
  simp only [decodeScan]
  split_ifs with hb hemp hleg
  · rw [hin] at hb
    exact absurd hb (by simp)
  · rfl
  · rcases hleg with hx | hx
    · exact absurd hx h2
    · exact absurd hx h3
  · rfl

/-- Witness for C4 (amended): the same unknown-type entry inside a one-byte
buffer passes the bounds check and decodes to the empty passthrough scan. -/
theorem c4_unknown_packet_empty_scan_witness :
    decodeScan [0] 0 entryUnknownType 1 [] = .ok (emptyScanOf 1 entryUnknownType) :=
  c4_unknown_packet_empty_scan [0] 0 entryUnknownType 1 [] (by decide) (by decide)

/-! ## Claim C5 -/

/-- Counterexample to C5 as stated: the sub-segment-count sanity guard of
the FT/LT profile decoder reports CorruptedData (scan_data_ftlt.rs:237-242),
not a ScanDecodeError carrying the packet offset. -/
theorem c5_counterexample :
    decodeFtltProfile dBadSubsegCount 0 hdrOneSegment [] true
      = .error .corruptedData ∧
    decodeFtltProfile dBadSubsegCount 0 hdrOneSegment [] true
      ≠ .error (.scanDecodeError 0) := by
  constructor
  · decide
  · decide

/-- C5 (amended): the sanity guards reject oversized counts with an error
before any decoded peaks are produced: a legacy centroid peak count above
10 million is rejected as ScanDecodeError carrying the centroid-section
offset (scan_data_centroid.rs:20-25); an FT/LT segment peak count above
10 million, a profile sub-segment count above 100000 and a profile word
count above 10 million are rejected as CorruptedData
(scan_data_ftlt.rs:187-191, 237-242, 249-254). -/
theorem c5_sanity_guards (d : Bytes) (pos : Nat) (hdr : FtLtPacketHeader)
    (params : List ℚ) (isFt : Bool) :
    (pos + 4 ≤ d.length → 10000000 < leNat d pos 4 →
      decodeCentroid d pos = .error (.scanDecodeError pos)) ∧
    (hdr.numSegments ≠ 0 → pos + 4 ≤ d.length → 10000000 < leNat d pos 4 →
      decodeFtltCentroids d pos hdr = .error .corruptedData) ∧
    (hdr.numSegments ≠ 0 → pos + 32 ≤ d.length →
      100000 < leNat d (pos + 16) 4 →
      decodeFtltProfile d pos hdr params isFt = .error .corruptedData) ∧
    (hdr.numSegments ≠ 0 → pos + 40 ≤ d.length →
      leNat d (pos + 16) 4 ≠ 0 → leNat d (pos + 16) 4 ≤ 100000 →
      10000000 < leNat d (pos + 36) 4 →
      decodeFtltProfile d pos hdr params isFt = .error .corruptedData) := by
  refine ⟨fun hb hc => ?_, fun hseg hb hc => ?_, fun hseg hb hc => ?_,
    fun hseg hb hnz hle hw => ?_⟩
  · simp only [decodeCentroid, readU32, if_pos hb, bind, Except.bind]
    rw [if_pos hc]
  · obtain ⟨s, hs⟩ := Nat.exists_eq_succ_of_ne_zero hseg
    simp only [decodeFtltCentroids, hs, ftltCentroidSegLoop, readU32,
      if_pos hb, bind, Except.bind]
    rw [if_pos hc]
  · obtain ⟨s, hs⟩ := Nat.exists_eq_succ_of_ne_zero hseg
    have e1 : pos + 8 ≤ d.length := by omega
    have e2 : pos + 8 + 8 ≤ d.length := by omega
    have e3 : pos + 8 + 8 + 4 ≤ d.length := by omega
    have e4 : pos + 8 + 8 + 4 + 4 ≤ d.length := by omega
    have e5 : pos + 8 + 8 + 4 + 4 + 8 ≤ d.length := by omega
    have hp : pos + 8 + 8 = pos + 16 := by omega
    simp only [decodeFtltProfile, hs, ftltProfileSegLoop, readF64, readU32,
      skipBytes, if_pos e1, if_pos e2, if_pos e3, if_pos e4, if_pos e5,
      bind, Except.bind, hp]
    rw [if_pos hc]
  · obtain ⟨s, hs⟩ := Nat.exists_eq_succ_of_ne_zero hseg
    obtain ⟨k, hk⟩ := Nat.exists_eq_succ_of_ne_zero hnz
    have e1 : pos + 8 ≤ d.length := by omega
    have e2 : pos + 8 + 8 ≤ d.length := by omega
    have e3 : pos + 8 + 8 + 4 ≤ d.length := by omega
    have e4 : pos + 8 + 8 + 4 + 4 ≤ d.length := by omega
    have e5 : pos + 8 + 8 + 4 + 4 + 8 ≤ d.length := by omega
    have e6 : pos + 8 + 8 + 4 + 4 + 8 + 4 ≤ d.length := by omega
    have e7 : pos + 8 + 8 + 4 + 4 + 8 + 4 + 4 ≤ d.length := by omega
    have hp : pos + 8 + 8 = pos + 16 := by omega
    have hq : pos + 8 + 8 + 4 + 4 + 8 + 4 = pos + 36 := by omega
    have hng : ¬ (100000 < leNat d (pos + 16) 4) := by omega
    simp only [decodeFtltProfile, hs, ftltProfileSegLoop, readF64, readU32,
      skipBytes, if_pos e1, if_pos e2, if_pos e3, if_pos e4, if_pos e5,
      bind, Except.bind, hp]
    rw [if_neg hng, hk]
    simp only [ftltSubsegLoop, readU32, if_pos e6, if_pos e7, bind,
      Except.bind, hq]
    rw [if_pos hw]

/-- Witness for C5 at concrete oversized counts: a 10000001-peak centroid
section, a 10000001-peak FT/LT segment, a 200000-sub-segment profile
segment, and a 10000001-word sub-segment. -/
theorem c5_sanity_guards_witness :
    decodeCentroid dBadPeakCount 0 = .error (.scanDecodeError 0) ∧
    decodeFtltCentroids dBadPeakCount 0 hdrOneSegment = .error .corruptedData ∧
    decodeFtltProfile dBadSubsegCount 0 hdrOneSegment [] true
      = .error .corruptedData ∧
    decodeFtltProfile dBadWordCount 0 hdrOneSegment [] true
      = .error .corruptedData :=
  ⟨(c5_sanity_guards dBadPeakCount 0 hdrOneSegment [] true).1
      (by decide) (by decide),
   (c5_sanity_guards dBadPeakCount 0 hdrOneSegment [] true).2.1
      (by decide) (by decide) (by decide),
   (c5_sanity_guards dBadSubsegCount 0 hdrOneSegment [] true).2.2.1
      (by decide) (by decide) (by decide),
   (c5_sanity_guards dBadWordCount 0 hdrOneSegment [] true).2.2.2
      (by decide) (by decide) (by decide) (by decide) (by decide)⟩

/-! ## Claim C6 -/

theorem validStrideLoop_props (d : Bytes) (start stride : Nat) :
    ∀ k i prev, validStrideLoop d start stride i k prev = true →
      (∀ j < k, start + (i + j) * stride + 72 ≤ d.length ∧
        f64NegPointOne ≤ qOfF64Bits (leNat d (start + (i + j) * stride + 24) 8) ∧
        qOfF64Bits (leNat d (start + (i + j) * stride + 24) 8) ≤ 1440) ∧
      (0 < k → prev - f64PointOhOhOne ≤
        qOfF64Bits (leNat d (start + i * stride + 24) 8)) ∧
      (∀ j, j + 1 < k →
        qOfF64Bits (leNat d (start + (i + j) * stride + 24) 8) - f64PointOhOhOne ≤
          qOfF64Bits (leNat d (start + (i + j + 1) * stride + 24) 8)) := by
  intro k
  induction k with
  | zero =>
    intro i prev _
    exact ⟨fun j hj => absurd hj (by omega),
      fun h0 => absurd h0 (lt_irrefl 0),
      fun j hj => absurd hj (by omega)⟩
  | succ n ih =>
    intro i prev h
    simp only [validStrideLoop] at h
    by_cases hfit : d.length < start + i * stride + 72
    · rw [if_pos hfit] at h
      exact absurd h (by simp)
    · rw [if_neg hfit] at h
      by_cases hcond :
          ¬ (f64NegPointOne ≤ qOfF64Bits (leNat d (start + i * stride + 24) 8) ∧
            qOfF64Bits (leNat d (start + i * stride + 24) 8) ≤ 1440) ∨
          qOfF64Bits (leNat d (start + i * stride + 24) 8) <
            qSub prev f64PointOhOhOne
      · rw [if_pos hcond] at h
        exact absurd h (by simp)
      · rw [if_neg hcond] at h
        push_neg at hcond
        obtain ⟨⟨hl, hr⟩, hmon⟩ := hcond
        rw [qSub_eq] at hmon
        obtain ⟨ih1, ih2, ih3⟩ := ih (i + 1) _ h
        refine ⟨?_, fun _ => hmon, ?_⟩
        · intro j hj
          cases j with
          | zero =>
            refine ⟨by simp only [Nat.add_zero]; omega, by simpa using hl,
              by simpa using hr⟩
          | succ m =>
            have hm := ih1 m (by omega)
            have heq : i + 1 + m = i + (m + 1) := by omega
            rw [heq] at hm
            exact hm
        · intro j hj
          cases j with
          | zero =>
            have h2 := ih2 (by omega)
            simpa using h2
          | succ m =>
            have hm := ih3 m (by omega)
            have heq : i + 1 + m = i + (m + 1) := by omega
            rw [heq] at hm
            exact hm

/-- Counterexample to C6 as stated: a scan index whose first retention time
is exactly the f64 value of -0.1 is accepted by the code-side validation
(the source tests the closed interval -0.1 <= rt <= 1440,
scan_index.rs:114), but the spec-side predicate with its open lower bound
(-0.1, 1440] rejects it. -/
theorem c6_counterexample :
    isValidStride dStrideBoundary 0 3 72 = true ∧
    ¬ specStrideAccepts dStrideBoundary 0 3 72 := by
  constructor
  · decide
  · decide

/-- C6 (amended): stride validation accepts a candidate entry size only if,
for each of the first up-to-five records, the record fits in the buffer and
its retention time at relative offset +24 lies in the CLOSED interval
[-0.1, 1440], and the sequence is non-decreasing up to a slack of 0.001
(each value at least the previous minus 0.001) — both float literals taken
at their exact f64 values; files with fewer than 3 scans skip validation
entirely and keep the documented size; when the documented size passes it is
kept; when it fails and differs from 72, the size 72 is retried and used
exactly when it passes (scan_index.rs:82-120). -/
theorem c6_stride_validation (d : Bytes) (offset nScans stride version : Nat) :
    (isValidStride d offset nScans stride = true →
      (∀ i < min nScans 5,
        offset + i * stride + 72 ≤ d.length ∧
        f64NegPointOne ≤ qOfF64Bits (leNat d (offset + i * stride + 24) 8) ∧
        qOfF64Bits (leNat d (offset + i * stride + 24) 8) ≤ 1440) ∧
      (∀ i, i + 1 < min nScans 5 →
        qOfF64Bits (leNat d (offset + i * stride + 24) 8) - f64PointOhOhOne ≤
          qOfF64Bits (leNat d (offset + (i + 1) * stride + 24) 8))) ∧
    (nScans < 3 →
      detectEntrySize d offset nScans version = scanIndexEntrySize version) ∧
    (isValidStride d offset nScans (scanIndexEntrySize version) = true →
      detectEntrySize d offset nScans version = scanIndexEntrySize version) ∧
    (3 ≤ nScans →
      isValidStride d offset nScans (scanIndexEntrySize version) = false →
      scanIndexEntrySize version ≠ 72 →
      detectEntrySize d offset nScans version =
        if isValidStride d offset nScans 72 = true then 72
        else scanIndexEntrySize version) := by
  refine ⟨fun hv => ?_, fun hn => ?_, fun hv => ?_, fun hn hf hne => ?_⟩
  · obtain ⟨p1, _, p3⟩ := validStrideLoop_props d offset stride (min nScans 5) 0 (-1) hv
    constructor
    · intro i hi
      have := p1 i hi
      simpa using this
    · intro i hi
      have := p3 i hi
      simpa using this
  · simp [detectEntrySize, hn]
  · by_cases hn : nScans < 3
    · simp [detectEntrySize, hn]
    · simp [detectEntrySize, hn, hv]
  · have hn3 : ¬ nScans < 3 := by omega
    by_cases h72 : isValidStride d offset nScans 72 = true
    · simp [detectEntrySize, hn3, hf, hne, h72]
    · simp [detectEntrySize, hn3, hf, hne, h72]

/-- Witness for C6 at the all-zero three-record index: validation at stride
72 passes and yields the per-record facts for record 0, and for version 65
(documented size 88, which fails on this buffer) the fallback picks the
result of the 72-byte retry. -/
theorem c6_stride_validation_witness :
    (0 + 0 * 72 + 72 ≤ dStrideZeros.length ∧
      f64NegPointOne ≤ qOfF64Bits (leNat dStrideZeros (0 + 0 * 72 + 24) 8) ∧
      qOfF64Bits (leNat dStrideZeros (0 + 0 * 72 + 24) 8) ≤ 1440) ∧
    detectEntrySize dStrideZeros 0 3 65 =
      if isValidStride dStrideZeros 0 3 72 = true then 72
      else scanIndexEntrySize 65 :=
  ⟨((c6_stride_validation dStrideZeros 0 3 72 65).1 (by decide)).1 0 (by decide),
   (c6_stride_validation dStrideZeros 0 3 72 65).2.2.2 (by decide) (by decide)
     (by decide)⟩

/-! ## Claim C2 -/

/-- Counterexample to C2 as stated: with ppm tolerance 0 the window
degenerates to the single point [target, target], and a centroid whose m/z
equals the target exactly still contributes: the one-peak file with peak
m/z 500, intensity 1000 yields the XIC bin 1000, not 0
(raw_file.rs:601-603 and 630-635). -/
theorem c2_counterexample :
    (xicMs1 rfPeak500 500 0).intensity = [1000] ∧
    ¬ (∀ x ∈ (xicMs1 rfPeak500 500 0).intensity, x = 0) := by
  constructor
  · decide
  · decide

theorem sumInWindow_point_not_mem (cmz cint : List ℚ) (t : ℚ) (h : t ∉ cmz) :
    sumInWindow cmz cint t t = 0 := by
  unfold sumInWindow
  have hf : (cmz.zip cint).filter (fun pr => decide (t ≤ pr.1 ∧ pr.1 ≤ t)) = [] := by
    rw [List.filter_eq_nil_iff]
    rintro ⟨mz, intensity⟩ hpr
    have hmem : mz ∈ cmz := (List.of_mem_zip hpr).1
    simp only [decide_eq_true_eq]
    rintro ⟨h1, h2⟩
    exact h ((le_antisymm h2 h1) ▸ hmem)
  rw [hf]
  rfl

theorem xicEntryResult_ppm0 (rf : RawFileModel) (t : ℚ) (b : Bool) (idx : Nat)
    (e : ScanIndexEntry)
    (h : ∀ cmz cint,
      decodeCentroidsOnly rf.data rf.dataAddr e = .ok (cmz, cint) → t ∉ cmz) :
    ∀ pr, xicEntryResult rf t t b idx e = some pr → pr.2 = 0 := by
  intro pr hpr
  unfold xicEntryResult at hpr
  split_ifs at hpr with h1 h2
  · simp only [Option.some.injEq] at hpr
    subst hpr
    rfl
  · cases hdec : decodeCentroidsOnly rf.data rf.dataAddr e with
    | error err =>
      rw [hdec] at hpr
      simp only [Option.some.injEq] at hpr
      subst hpr
      rfl
    | ok r =>
      rw [hdec] at hpr
      simp only [Option.some.injEq] at hpr
      subst hpr
      have hmem : t ∉ r.1 := h r.1 r.2 (by rw [hdec])
      exact sumInWindow_point_not_mem r.1 r.2 t hmem

theorem xicPerScan_ppm0 (rf : RawFileModel) (t : ℚ) (b : Bool) :
    ∀ (l : List ScanIndexEntry),
      (∀ e ∈ l, ∀ cmz cint,
        decodeCentroidsOnly rf.data rf.dataAddr e = .ok (cmz, cint) → t ∉ cmz) →
      ∀ idx x, x ∈ ((xicPerScan rf t t b idx l).filterMap id).map Prod.snd →
        x = 0 := by
  intro l
  induction l with
  | nil =>
    intro _ idx x hx
    simp [xicPerScan] at hx
  | cons e rest ih =>
    intro h idx x hx
    simp only [xicPerScan] at hx
    cases ho : xicEntryResult rf t t b idx e with
    | none =>
      rw [ho] at hx
      simp only [List.filterMap_cons] at hx
      exact ih (fun e' he' => h e' (List.mem_cons_of_mem e he')) (idx + 1) x hx
    | some pr =>
      rw [ho] at hx
      simp only [List.filterMap_cons, id, List.map_cons, List.mem_cons] at hx
      rcases hx with rfl | hx
      · exact xicEntryResult_ppm0 rf t b idx e (h e (List.mem_cons_self e rest)) pr ho
      · exact ih (fun e' he' => h e' (List.mem_cons_of_mem e he')) (idx + 1) x hx

/-- C2 (amended): with a ppm tolerance of 0 the window degenerates to the
single point equal to the target m/z, so the XIC (and MS1-only XIC)
intensity is zero in every bin provided no decoded centroid of any scan has
m/z exactly equal to the target (raw_file.rs:594-645). -/
theorem c2_ppm_zero_xic (rf : RawFileModel) (targetMz : ℚ)
    (h : ∀ e ∈ rf.scanIndex, ∀ cmz cint,
      decodeCentroidsOnly rf.data rf.dataAddr e = .ok (cmz, cint) →
      targetMz ∉ cmz) :
    (∀ x ∈ (xic rf targetMz 0).intensity, x = 0) ∧
    (∀ x ∈ (xicMs1 rf targetMz 0).intensity, x = 0) := by
  have key : ∀ (b : Bool), ∀ x ∈ (xicInner rf targetMz 0 b).intensity, x = 0 := by
    intro b
    have hhw : qMul (qMul targetMz 0) f64OneEMinus6 = 0 := by
      rw [qMul_eq, qMul_eq]; ring
    have hlow : qSub targetMz (qMul (qMul targetMz 0) f64OneEMinus6) = targetMz := by
      rw [hhw, qSub_eq]; ring
    have hhigh : qAdd targetMz (qMul (qMul targetMz 0) f64OneEMinus6) = targetMz := by
      rw [hhw, qAdd_eq]; ring
    simp only [xicInner, hlow, hhigh]
    intro x hx
    exact xicPerScan_ppm0 rf targetMz b rf.scanIndex h 0 x hx
  exact ⟨key false, key true⟩

/-- Witness for C2 (amended) on the one-peak file with target 600 (no
centroid at exactly 600): both XIC variants give the zero bin. -/
theorem c2_ppm_zero_xic_witness :
    (xic rfPeak500 600 0).intensity.getD 0 1 = 0 ∧
    (xicMs1 rfPeak500 600 0).intensity.getD 0 1 = 0 := by
  have h : ∀ e ∈ rfPeak500.scanIndex, ∀ cmz cint,
      decodeCentroidsOnly rfPeak500.data rfPeak500.dataAddr e = .ok (cmz, cint) →
      (600 : ℚ) ∉ cmz := by
    intro e he cmz cint hdec
    have he' : e = entryPeak500 := by
      simpa [rfPeak500] using he
    subst he'
    have heval : decodeCentroidsOnly rfPeak500.data rfPeak500.dataAddr entryPeak500
        = .ok ([500], [1000]) := by decide
    rw [heval] at hdec
    simp only [Except.ok.injEq, Prod.mk.injEq] at hdec
    rw [← hdec.1]
    decide
  exact ⟨(c2_ppm_zero_xic rfPeak500 600 h).1 _ (by decide),
    (c2_ppm_zero_xic rfPeak500 600 h).2 _ (by decide)⟩

/-! ## Claim C1 -/

/-- Counterexample to C1 as stated: when a decoded centroid (m/z 200) lies
outside the index-declared m/z range [400, 600], the batch path decodes the
scan because ANOTHER target (500) overlaps the declared range, and then sums
the 200-target window over all decoded peaks (1000), while the single-target
xic_ms1 for 200 prunes the scan by the declared range and emits 0
(raw_file.rs:341-372 versus 614-619). -/
theorem c1_counterexample :
    ((xicBatchMs1 rfMislabelled [(200, 5000), (500, 5000)]).getD 0 default).intensity
      = [1000] ∧
    (xicMs1 rfMislabelled 200 5000).intensity = [0] ∧
    ((xicBatchMs1 rfMislabelled [(200, 5000), (500, 5000)]).getD 0 default).intensity
      ≠ (xicMs1 rfMislabelled 200 5000).intensity := by
  refine ⟨by decide, by decide, by decide⟩

theorem sumInWindow_zero_of_disjoint (cmz cint : List ℚ) (low high lo hi : ℚ)
    (hmem : ∀ mz ∈ cmz, lo ≤ mz ∧ mz ≤ hi) (hdisj : hi < low ∨ high < lo) :
    sumInWindow cmz cint low high = 0 := by
  unfold sumInWindow
  have hf : (cmz.zip cint).filter (fun pr => decide (low ≤ pr.1 ∧ pr.1 ≤ high)) = [] := by
    rw [List.filter_eq_nil_iff]
    rintro ⟨mz, intensity⟩ hpr
    have hm := hmem mz ((List.of_mem_zip hpr).1)
    simp only [decide_eq_true_eq]
    rintro ⟨h1, h2⟩
    rcases hdisj with hd | hd
    · exact absurd h1 (by linarith [hm.2])
    · exact absurd h2 (by linarith [hm.1])
  rw [hf]
  rfl

theorem replicate_getD_zero (n j : Nat) : (List.replicate n (0 : ℚ)).getD j 0 = 0 := by
  induction n generalizing j with
  | zero => simp
  | succ m ih =>
    cases j with
    | zero => rfl
    | succ i => simpa [List.replicate_succ] using ih i

theorem map_getD_get (l : List (ℚ × ℚ)) (f : ℚ × ℚ → ℚ) (j : Nat)
    (hj : j < l.length) : (l.map f).getD j 0 = f (l.get ⟨j, hj⟩) := by
  induction l generalizing j with
  | nil => simp at hj
  | cons a as ih =>
    cases j with
    | zero => rfl
    | succ m =>
      simp only [List.map_cons, List.getD_cons_succ, List.get]
      exact ih m (by simpa using hj)

theorem batchEntry_component (rf : RawFileModel) (ranges : List (ℚ × ℚ))
    (nT idx : Nat) (e : ScanIndexEntry) (j : Nat) (hj : j < ranges.length)
    (hpk : 0 < e.lowMz → 0 < e.highMz →
      ∀ cmz cint, decodeCentroidsOnly rf.data rf.dataAddr e = .ok (cmz, cint) →
      ∀ mz ∈ cmz, e.lowMz ≤ mz ∧ mz ≤ e.highMz) :
    Option.map (fun pr => (pr.1, pr.2.getD j 0))
        (batchEntryResult rf ranges nT idx e)
      = xicEntryResult rf (ranges.get ⟨j, hj⟩).1 (ranges.get ⟨j, hj⟩).2
          true idx e := by
  unfold batchEntryResult xicEntryResult
  by_cases hms : rf.isMs1 idx = true
  · simp only [hms, not_true, and_false, true_and, if_false, ite_false, ite_true]
    set ov := (if 0 < e.lowMz ∧ 0 < e.highMz then
        ranges.any (fun r => decide (r.1 ≤ e.highMz) && decide (e.lowMz ≤ r.2))
        else true) with hovdef
    by_cases hprune : 0 < e.lowMz ∧ 0 < e.highMz ∧
        (e.highMz < (ranges.get ⟨j, hj⟩).1 ∨ (ranges.get ⟨j, hj⟩).2 < e.lowMz)
    · rw [if_pos hprune]
      by_cases hov : ¬ ov = true
      · rw [if_pos hov]
        simp only [Option.map_some']
        rw [replicate_getD_zero]
      · rw [if_neg hov]
        cases hdec : decodeCentroidsOnly rf.data rf.dataAddr e with
        | error err =>
          simp only [Option.map_some']
          rw [replicate_getD_zero]
        | ok r =>
          simp only [Option.map_some']
          rw [map_getD_get ranges _ j hj]
          have hz : sumInWindow r.1 r.2 (ranges.get ⟨j, hj⟩).1
              (ranges.get ⟨j, hj⟩).2 = 0 := by
            refine sumInWindow_zero_of_disjoint r.1 r.2 _ _ e.lowMz e.highMz
              ?_ hprune.2.2
            intro mz hmz
            exact hpk hprune.1 hprune.2.1 r.1 r.2 (by rw [hdec]) mz hmz
          rw [hz]
    · rw [if_neg hprune]
      have hovt : ov = true := by
        rw [hovdef]
        by_cases hpos : 0 < e.lowMz ∧ 0 < e.highMz
        · rw [if_pos hpos]
          have hnd : ¬ (e.highMz < (ranges.get ⟨j, hj⟩).1 ∨
              (ranges.get ⟨j, hj⟩).2 < e.lowMz) :=
            fun hc => hprune ⟨hpos.1, hpos.2, hc⟩
          push_neg at hnd
          rw [List.any_eq_true]
          refine ⟨ranges.get ⟨j, hj⟩, List.get_mem ranges j hj, ?_⟩
          simp only [Bool.and_eq_true, decide_eq_true_eq]
          exact ⟨hnd.1, hnd.2⟩
        · rw [if_neg hpos]
      rw [if_neg (by rw [hovt]; simp)]
      cases hdec : decodeCentroidsOnly rf.data rf.dataAddr e with
      | error err =>
        simp only [Option.map_some']
        rw [replicate_getD_zero]
      | ok r =>
        simp only [Option.map_some']
        rw [map_getD_get ranges _ j hj]
  · simp only [Bool.not_eq_true] at hms
    simp [hms]

theorem batch_vs_single_perScan (rf : RawFileModel) (ranges : List (ℚ × ℚ))
    (nT j : Nat) (hj : j < ranges.length) :
    ∀ (l : List ScanIndexEntry),
      (∀ e ∈ l, 0 < e.lowMz → 0 < e.highMz →
        ∀ cmz cint, decodeCentroidsOnly rf.data rf.dataAddr e = .ok (cmz, cint) →
        ∀ mz ∈ cmz, e.lowMz ≤ mz ∧ mz ≤ e.highMz) →
      ∀ idx,
        ((batchPerScan rf ranges nT idx l).filterMap id).map
            (fun pr => (pr.1, pr.2.getD j 0))
          = (xicPerScan rf (ranges.get ⟨j, hj⟩).1 (ranges.get ⟨j, hj⟩).2
              true idx l).filterMap id := by
  intro l
  induction l with
  | nil => intro _ idx; rfl
  | cons e rest ih =>
    intro h idx
    have hE := batchEntry_component rf ranges nT idx e j hj
      (h e (List.mem_cons_self e rest))
    simp only [batchPerScan, xicPerScan]
    rw [← hE]
    cases hb : batchEntryResult rf ranges nT idx e with
    | none =>
      simp only [Option.map_none', List.filterMap_cons, id]
      exact ih (fun e' he' => h e' (List.mem_cons_of_mem e he')) (idx + 1)
    | some pr =>
      simp only [Option.map_some', List.filterMap_cons, id, List.map_cons]
      rw [ih (fun e' he' => h e' (List.mem_cons_of_mem e he')) (idx + 1)]

theorem range_map_getD (n j : Nat) (hj : j < n) (F : Nat → Chromatogram)
    (dflt : Chromatogram) : ((List.range n).map F).getD j dflt = F j := by
  induction n generalizing j F with
  | zero => omega
  | succ m ih =>
    rw [List.range_succ_eq_map]
    cases j with
    | zero => rfl
    | succ i =>
      simp only [List.map_cons, List.getD_cons_succ, List.map_map]
      exact ih i (by omega) (F ∘ Nat.succ)

/-- C1 (amended): provided every decoded centroid m/z of every scan lies
within the scans index-declared m/z range whenever that range is positive
(the assumption justifying the index prune), xic_batch_ms1 returns, for each
target j, exactly the chromatogram of the single-target xic_ms1 for that
target — pointwise equal retention times and intensities, and all batch
chromatograms share the same retention-time array unconditionally
(raw_file.rs:319-395 versus 594-645).  Summation order over the decoded
peaks is identical in both paths, so the intensities agree exactly even at
floating-point granularity. -/
theorem c1_batch_xic_pointwise (rf : RawFileModel) (targets : List (ℚ × ℚ))
    (hpk : ∀ e ∈ rf.scanIndex, 0 < e.lowMz → 0 < e.highMz →
      ∀ cmz cint, decodeCentroidsOnly rf.data rf.dataAddr e = .ok (cmz, cint) →
      ∀ mz ∈ cmz, e.lowMz ≤ mz ∧ mz ≤ e.highMz) :
    (∀ j, (hj : j < targets.length) →
      (xicBatchMs1 rf targets).getD j default
        = xicMs1 rf (targets.get ⟨j, hj⟩).1 (targets.get ⟨j, hj⟩).2) ∧
    (∀ c ∈ xicBatchMs1 rf targets, ∀ c2 ∈ xicBatchMs1 rf targets,
      c.rt = c2.rt) := by
  constructor
  · intro j hj
    have hjr : j < (batchRanges targets).length := by
      simpa [batchRanges] using hj
    have hperscan := batch_vs_single_perScan rf (batchRanges targets)
      targets.length j hjr rf.scanIndex hpk 0
    have hget : (batchRanges targets).get ⟨j, hjr⟩ =
        (qSub (targets.get ⟨j, hj⟩).1
          (qMul (qMul (targets.get ⟨j, hj⟩).1 (targets.get ⟨j, hj⟩).2) f64OneEMinus6),
        qAdd (targets.get ⟨j, hj⟩).1
          (qMul (qMul (targets.get ⟨j, hj⟩).1 (targets.get ⟨j, hj⟩).2) f64OneEMinus6)) := by
      simp [batchRanges, List.get_map]
    rw [hget] at hperscan
    unfold xicBatchMs1
    rw [range_map_getD targets.length j hj]
    unfold xicMs1 xicInner
    refine congrArg₂ Chromatogram.mk ?_ ?_
    · rw [← hperscan, List.map_map]
      rfl
    · rw [← hperscan, List.map_map]
      rfl
  · intro c hc c2 hc2
    unfold xicBatchMs1 at hc hc2
    obtain ⟨t1, _, rfl⟩ := List.mem_map.mp hc
    obtain ⟨t2, _, rfl⟩ := List.mem_map.mp hc2
    rfl

/-- Witness for C1 (amended) on the consistent one-scan file with target
(500, 5000 ppm): the batch chromatogram for the single target equals the
single-target MS1 XIC. -/
theorem c1_batch_xic_pointwise_witness :
    (xicBatchMs1 rfConsistent [(500, 5000)]).getD 0 default
      = xicMs1 rfConsistent 500 5000 := by
  have hpk : ∀ e ∈ rfConsistent.scanIndex, 0 < e.lowMz → 0 < e.highMz →
      ∀ cmz cint,
        decodeCentroidsOnly rfConsistent.data rfConsistent.dataAddr e
          = .ok (cmz, cint) →
      ∀ mz ∈ cmz, e.lowMz ≤ mz ∧ mz ≤ e.highMz := by
    intro e he h1 h2 cmz cint hdec
    have he' : e = entryPeak500Ranged := by
      simpa [rfConsistent] using he
    subst he'
    have heval : decodeCentroidsOnly rfConsistent.data rfConsistent.dataAddr
        entryPeak500Ranged = .ok ([500], [1000]) := by decide
    rw [heval] at hdec
    simp only [Except.ok.injEq, Prod.mk.injEq] at hdec
    rw [← hdec.1]
    intro mz hmz
    simp only [List.mem_singleton] at hmz
    subst hmz
    constructor <;> decide
  exact (c1_batch_xic_pointwise rfConsistent [(500, 5000)] hpk).1 0 (by decide)

end ThermoRaw
